import Mathlib

/-!
# Shallow embedding of `c++/examples/copy.cpp`

The program copies the read batches of one POD5 container into a freshly created one.
The functions of `copy.cpp` are embedded as pure Lean functions over an explicit machine
state (`World`).  The container library (`pod5_format/c_api.h`) is not part of the sources;
every library entry point the program calls is a field of `Pod5Lib`, a deterministic
state machine over an arbitrary state type `σ`, so that theorems quantify over every
behaviour of the library.

Conventions
* `size_t` is 64 bit, `uint32_t` is 32 bit: arithmetic that can wrap carries an explicit
  `% 2 ^ 64` / `% 2 ^ 32`.
* Handles (`Pod5FileReader_t*`, `Pod5FileWriter_t*`, `Pod5ReadRecordBatch_t*`) are `Nat`.
* A value the library leaves in an output variable is part of the library call's result,
  also when the call fails (the variable is then uninitialised in C, i.e. arbitrary).
* `malloc` / `realloc` are assumed to succeed; each allocation is a fresh entry of the
  `heap` list, and `free` increments the entry's release count.
* The retry loops of the two resolvers need not terminate for an arbitrary library, so they
  take a `fuel` bound on the number of iterations; `Outcome.out_of_fuel` is the only
  artefact of the bound.
* Fields of `World` marked *ghost* only record what happened (calls made, values passed);
  no control flow of the model reads them.
-/

namespace Pod5Copy

/-! ## Library types -/

/-- The three classes of `pod5_error_t` the program distinguishes. -/
inductive pod5_error_t where
  | POD5_OK
  | POD5_ERROR_STRING_NOT_LONG_ENOUGH
  | POD5_ERROR_OTHER (code : Nat)
deriving DecidableEq, Repr

/-- The enumeration `CompressionOption` of the writer options. -/
inductive CompressionOption where
  | DEFAULT_SIGNAL_COMPRESSION
  | VBZ_SIGNAL_COMPRESSION
  | UNCOMPRESSED_SIGNAL
deriving DecidableEq, Repr

/-- The macro `MAX_END_REASON_STRING_SIZE`, defined as `(1 << 16)`. -/
def MAX_END_REASON_STRING_SIZE : Nat := 1 <<< 16

/-- The macro `MAX_PORE_TYPE_STRING_SIZE`, defined as `(1 << 16)`. -/
def MAX_PORE_TYPE_STRING_SIZE : Nat := 1 <<< 16

/-- One more than the largest `size_t`. -/
def SIZE_T_RANGE : Nat := 2 ^ 64

/-- One more than the largest `uint32_t`. -/
def UINT32_RANGE : Nat := 2 ^ 32

/-- One input row, `ReadBatchRowInfo_t`, with the fields `copy.cpp` reads.  Unsigned
integers and the bit patterns of `float` fields are `Nat`, `int16_t` fields are `Int`,
`read_id` is the list of its 16 bytes. -/
structure ReadBatchRowInfo_t where
  read_id : List Nat
  read_number : Nat
  start_sample : Nat
  median_before : Nat
  channel : Nat
  well : Nat
  pore_type : Int
  calibration_offset : Nat
  calibration_scale : Nat
  end_reason : Int
  end_reason_forced : Nat
  run_info : Int
  num_minknow_events : Nat
  tracked_scaling_scale : Nat
  tracked_scaling_shift : Nat
  predicted_scaling_scale : Nat
  predicted_scaling_shift : Nat
  num_reads_since_mux_change : Nat
  time_since_mux_change : Nat
deriving DecidableEq, Repr

/-- The column-oriented output, `ReadBatchRowInfoArray_t`: one array per field.  A slot is
`none` until it is written (the arrays come from `malloc`). -/
structure ReadBatchRowInfoArray_t where
  read_id : List (Option (List Nat))
  read_number : List (Option Nat)
  start_sample : List (Option Nat)
  median_before : List (Option Nat)
  channel : List (Option Nat)
  well : List (Option Nat)
  pore_type : List (Option Int)
  calibration_offset : List (Option Nat)
  calibration_scale : List (Option Nat)
  end_reason : List (Option Nat)
  end_reason_forced : List (Option Nat)
  run_info_id : List (Option Int)
  num_minknow_events : List (Option Nat)
  tracked_scaling_scale : List (Option Nat)
  tracked_scaling_shift : List (Option Nat)
  predicted_scaling_scale : List (Option Nat)
  predicted_scaling_shift : List (Option Nat)
  num_reads_since_mux_change : List (Option Nat)
  time_since_mux_change : List (Option Nat)
deriving DecidableEq, Repr

/-- Result of `pod5_get_pore_type`: the error code, the value of `*size` after the call and
the NUL-terminated content of the caller's buffer after the call. -/
structure StrLookup where
  error : pod5_error_t
  size : Nat
  text : String
deriving DecidableEq, Repr

/-- Result of `pod5_get_end_reason`: as `StrLookup`, plus the value written through
`end_reason_value` (`none` when the call does not write it). -/
structure EndReasonLookup where
  error : pod5_error_t
  size : Nat
  text : String
  value : Option Nat
deriving DecidableEq, Repr

/-- The arguments of one `pod5_add_reads_data` call. -/
structure AppendCall where
  row_count : Nat
  row_data : ReadBatchRowInfoArray_t
  signal : List (List Int)
  signal_length : List Nat
deriving DecidableEq, Repr

/-- The entry points of the container library used by `copy.cpp`, over library state `σ`. -/
structure Pod5Lib (σ : Type) where
  pod5_get_error_string : σ → String
  pod5_get_pore_type : σ → Nat → Int → Nat → StrLookup × σ
  pod5_get_end_reason : σ → Nat → Int → Nat → EndReasonLookup × σ
  pod5_add_pore : σ → Nat → String → (pod5_error_t × Int) × σ
  pod5_get_read_batch : σ → Nat → Nat → (pod5_error_t × Nat) × σ
  pod5_get_read_batch_row_count : σ → Nat → (pod5_error_t × Nat) × σ
  pod5_get_read_batch_row_info_data : σ → Nat → Nat → (pod5_error_t × ReadBatchRowInfo_t) × σ
  pod5_get_read_complete_sample_count : σ → Nat → Nat → Nat → (pod5_error_t × Nat) × σ
  pod5_get_read_complete_signal : σ → Nat → Nat → Nat → Nat → (pod5_error_t × List Int) × σ
  pod5_add_reads_data : σ → Nat → AppendCall → pod5_error_t × σ
  pod5_free_read_batch : σ → Nat → pod5_error_t × σ

/-! ## Machine state -/

/-- One allocation made for a resolved string. -/
structure Buffer where
  size : Nat
  text : String
  released : Nat
deriving DecidableEq, Repr

/-- The state the program runs in. -/
structure World (σ : Type) where
  /-- state of the container library -/
  lib : σ
  /-- every string buffer allocated so far, by address -/
  heap : List Buffer
  /-- lines written to `std::cerr` -/
  cerr : List String
  /-- the global `pore_type_cache` (`std::map<std::string, int16_t>`) -/
  pore_type_cache : List (String × Int)
  /-- ghost: buffer size passed to each string lookup call -/
  lookups : List Nat
  /-- ghost: string passed to each `pod5_add_pore` call and the code it left -/
  registered : List (String × Int)
  /-- ghost: the pore-type string read from the resolver buffer, one per row -/
  resolved : List String
  /-- ghost: arguments of each `pod5_add_reads_data` call -/
  appended : List AppendCall

/-- How a call ends: normal return, a propagating `std::runtime_error`, or the iteration
bound of the model was hit. -/
inductive Outcome (α ε : Type) where
  | returned (a : α)
  | threw (e : ε)
  | out_of_fuel

/-- The state at the start of `main`'s batch loop: empty cache, nothing allocated. -/
def World.init {σ : Type} (s : σ) : World σ :=
  { lib := s, heap := [], cerr := [], pore_type_cache := [], lookups := [],
    registered := [], resolved := [], appended := [] }

/-! ## Memory -/

/-- Apply `f` to the entry at position `p`, if there is one. -/
def updateAt {α : Type} (f : α → α) : Nat → List α → List α
  | _, [] => []
  | 0, b :: bs => f b :: bs
  | p + 1, b :: bs => b :: updateAt f p bs

/-- Model of `malloc(n)`: a fresh buffer at the next address. -/
def malloc (n : Nat) (heap : List Buffer) : Nat × List Buffer :=
  (heap.length, heap ++ [{ size := n, text := "", released := 0 }])

/-- Model of `free(p)` for a non-null `p`. -/
def free (p : Nat) (heap : List Buffer) : List Buffer :=
  updateAt (fun b => { b with released := b.released + 1 }) p heap

/-- Model of `free(p)` for a possibly null `p`: `free(nullptr)` does nothing. -/
def free_ptr (p : Option Nat) (heap : List Buffer) : List Buffer :=
  match p with
  | none => heap
  | some a => free a heap

/-- Content of the buffer at `p` read as a C string. -/
def load (p : Nat) (heap : List Buffer) : String :=
  match heap[p]? with
  | some b => b.text
  | none => ""

/-- The library filled the buffer at `p`. -/
def store (p : Nat) (text : String) (heap : List Buffer) : List Buffer :=
  updateAt (fun b => { b with text := text }) p heap

/-- Model of `realloc(p, n)`: the old allocation is released and a fresh one of size `n` holds its
content. -/
def realloc (p : Nat) (n : Nat) (heap : List Buffer) : Nat × List Buffer :=
  (heap.length, free p heap ++ [{ size := n, text := load p heap, released := 0 }])

/-! ## `std::map<std::string, int16_t>` -/

/-- Model of `pore_type_cache->find(key)`; `none` is `end()`. -/
def map_find (m : List (String × Int)) (key : String) : Option Int :=
  match m with
  | [] => none
  | (k, v) :: rest => if k = key then some v else map_find rest key

/-- Model of `pore_type_cache->insert({key, value})`: no effect when the key is present. -/
def map_insert (m : List (String × Int)) (key : String) (value : Int) : List (String × Int) :=
  match map_find m key with
  | some _ => m
  | none => m ++ [(key, value)]

/-! ## Logging macros -/

/-- The macro `LOG_PROGRAM_ERROR(e)`: when `e` is not `POD5_OK`, write the library's error string. -/
def LOG_PROGRAM_ERROR {σ : Type} (L : Pod5Lib σ) (e : pod5_error_t) (w : World σ) : World σ :=
  if e ≠ pod5_error_t.POD5_OK then
    { w with cerr := w.cerr ++ [L.pod5_get_error_string w.lib] }
  else w

/-! ## Growable string resolvers -/

/-- The output parameters of a resolver: the `char*` (`none` is `nullptr`) and the size. -/
structure ResolverOut where
  str : Option Nat
  size : Nat
deriving DecidableEq, Repr

/-- The loop condition `error != POD5_OK && size <= MAX` of both resolvers. -/
def retry_condition (error : pod5_error_t) (size max : Nat) : Bool :=
  decide (error ≠ pod5_error_t.POD5_OK) && decide (size ≤ max)

/-- The `do ... while` loop of `pod5_get_pore_wrapped`; `str` and `size` are the current
values of `*pore_type_string_value` and `*pore_type_string_value_size`.  With `DEBUG`
defined the branch for any other error ends in `throw std::runtime_error("")`. -/
def pod5_get_pore_loop {σ : Type} (L : Pod5Lib σ) (batch : Nat) (pore_type : Int) :
    Nat → World σ → Nat → Nat → Outcome (World σ × ResolverOut) (World σ)
  | 0, _, _, _ => Outcome.out_of_fuel
  | fuel + 1, w, str, size =>
    let r := L.pod5_get_pore_type w.lib batch pore_type size
    let error := r.1.error
    let w1 : World σ :=
      { w with lib := r.2, heap := store str r.1.text w.heap, lookups := w.lookups ++ [size] }
    let size1 := r.1.size
    if error = pod5_error_t.POD5_ERROR_STRING_NOT_LONG_ENOUGH then
      let size2 := (size1 <<< 1) % SIZE_T_RANGE
      let m := realloc str size2 w1.heap
      let w2 : World σ := { w1 with heap := m.2 }
      if retry_condition error size2 MAX_PORE_TYPE_STRING_SIZE then
        pod5_get_pore_loop L batch pore_type fuel w2 m.1 size2
      else Outcome.returned (w2, { str := some m.1, size := size2 })
    else if error ≠ pod5_error_t.POD5_OK then
      Outcome.threw (LOG_PROGRAM_ERROR L error { w1 with heap := free str w1.heap })
    else if retry_condition error size1 MAX_PORE_TYPE_STRING_SIZE then
      pod5_get_pore_loop L batch pore_type fuel w1 str size1
    else Outcome.returned (w1, { str := some str, size := size1 })

/-- Function `pod5_get_pore_wrapped`: start with a 256-byte buffer (`16 << 4`) and run the loop. -/
def pod5_get_pore_wrapped {σ : Type} (L : Pod5Lib σ) (fuel : Nat) (batch : Nat)
    (pore_type : Int) (w : World σ) : Outcome (World σ × ResolverOut) (World σ) :=
  let size := 16 <<< 4
  let m := malloc size w.heap
  pod5_get_pore_loop L batch pore_type fuel { w with heap := m.2 } m.1 size

/-- The output parameters of `pod5_get_end_reason_wrapped`: the `char*`, the size and the
content of `*end_reason_value`. -/
structure EndReasonOut where
  str : Option Nat
  size : Nat
  value : Option Nat
deriving DecidableEq, Repr

/-- The `do ... while` loop of `pod5_get_end_reason_wrapped`; `value` is the current
content of `*end_reason_value`.  The branch for any other error frees the buffer, logs and
returns; it does not reset `*end_reason_string_value`. -/
def pod5_get_end_reason_loop {σ : Type} (L : Pod5Lib σ) (batch : Nat) (end_reason : Int) :
    Nat → World σ → Nat → Nat → Option Nat → Outcome (World σ × EndReasonOut) (World σ)
  | 0, _, _, _, _ => Outcome.out_of_fuel
  | fuel + 1, w, str, size, value =>
    let r := L.pod5_get_end_reason w.lib batch end_reason size
    let error := r.1.error
    let value1 := match r.1.value with
      | some v => some v
      | none => value
    let w1 : World σ :=
      { w with lib := r.2, heap := store str r.1.text w.heap, lookups := w.lookups ++ [size] }
    let size1 := r.1.size
    if error = pod5_error_t.POD5_ERROR_STRING_NOT_LONG_ENOUGH then
      let size2 := (size1 <<< 1) % SIZE_T_RANGE
      let m := realloc str size2 w1.heap
      let w2 : World σ := { w1 with heap := m.2 }
      if retry_condition error size2 MAX_END_REASON_STRING_SIZE then
        pod5_get_end_reason_loop L batch end_reason fuel w2 m.1 size2 value1
      else Outcome.returned (w2, { str := some m.1, size := size2, value := value1 })
    else if error ≠ pod5_error_t.POD5_OK then
      Outcome.returned
        (LOG_PROGRAM_ERROR L error { w1 with heap := free str w1.heap },
          { str := some str, size := size1, value := value1 })
    else if retry_condition error size1 MAX_END_REASON_STRING_SIZE then
      pod5_get_end_reason_loop L batch end_reason fuel w1 str size1 value1
    else Outcome.returned (w1, { str := some str, size := size1, value := value1 })

/-- Function `pod5_get_end_reason_wrapped`: start with a 256-byte buffer and run the loop. -/
def pod5_get_end_reason_wrapped {σ : Type} (L : Pod5Lib σ) (fuel : Nat) (batch : Nat)
    (end_reason : Int) (value : Option Nat) (w : World σ) :
    Outcome (World σ × EndReasonOut) (World σ) :=
  let size := 16 <<< 4
  let m := malloc size w.heap
  pod5_get_end_reason_loop L batch end_reason fuel { w with heap := m.2 } m.1 size value

/-! ## Row batch transformer -/

/-- The locals of `transform_read_data_batch_array` that change in its loop: the column
arrays reachable from `row_data`, and the two pointers the loop advances (`read_id` and
`end_reason`), kept as offsets from the start of their arrays. -/
structure TransformState where
  row_data : ReadBatchRowInfoArray_t
  read_id : Nat
  end_reason : Nat
deriving DecidableEq, Repr

/-- The allocation part of `transform_read_data_batch_array`: 19 arrays of `record_count`
slots each. -/
def alloc_columns (record_count : Nat) : ReadBatchRowInfoArray_t :=
  { read_id := List.replicate record_count none
    read_number := List.replicate record_count none
    start_sample := List.replicate record_count none
    median_before := List.replicate record_count none
    channel := List.replicate record_count none
    well := List.replicate record_count none
    pore_type := List.replicate record_count none
    calibration_offset := List.replicate record_count none
    calibration_scale := List.replicate record_count none
    end_reason := List.replicate record_count none
    end_reason_forced := List.replicate record_count none
    run_info_id := List.replicate record_count none
    num_minknow_events := List.replicate record_count none
    tracked_scaling_scale := List.replicate record_count none
    tracked_scaling_shift := List.replicate record_count none
    predicted_scaling_scale := List.replicate record_count none
    predicted_scaling_shift := List.replicate record_count none
    num_reads_since_mux_change := List.replicate record_count none
    time_since_mux_change := List.replicate record_count none }

/-- Lines 212 to 219 of the loop body: `memcpy` of the read id through the advancing
pointer, then `read_number[i]` to `well[i]`. -/
def copy_leading_fields (i : Nat) (row : ReadBatchRowInfo_t) (t : TransformState) :
    TransformState :=
  { row_data :=
      { t.row_data with
        read_id := t.row_data.read_id.set t.read_id (some row.read_id)
        read_number := t.row_data.read_number.set i (some row.read_number)
        start_sample := t.row_data.start_sample.set i (some row.start_sample)
        median_before := t.row_data.median_before.set i (some row.median_before)
        channel := t.row_data.channel.set i (some row.channel)
        well := t.row_data.well.set i (some row.well) }
    read_id := t.read_id + 1
    end_reason := t.end_reason }

/-- Lines 223 to 235 of the loop body: read the resolver buffer as a `std::string`, look it
up in `pore_type_cache`, register it with `pod5_add_pore` on a miss, write `pore_type[i]`
and release the buffer (`DEBUG_FREE`).  A resolver that returns always hands over a
non-null pointer; the null case is kept only to make the function total. -/
def intern_pore_type {σ : Type} (L : Pod5Lib σ) (writer : Nat) (i : Nat)
    (pore_type_str : Option Nat) (w : World σ) (t : TransformState) :
    World σ × TransformState :=
  let key : String :=
    match pore_type_str with
    | some p => load p w.heap
    | none => ""
  let wc : World σ × Int :=
    match map_find w.pore_type_cache key with
    | some code => (w, code)
    | none =>
      let a := L.pod5_add_pore w.lib writer key
      let new_pore_type := a.1.2
      let w1 : World σ :=
        LOG_PROGRAM_ERROR L a.1.1
          { w with lib := a.2, registered := w.registered ++ [(key, new_pore_type)] }
      ({ w1 with pore_type_cache := map_insert w1.pore_type_cache key new_pore_type },
        new_pore_type)
  ({ wc.1 with heap := free_ptr pore_type_str wc.1.heap, resolved := wc.1.resolved ++ [key] },
    { t with row_data :=
        { t.row_data with pore_type := t.row_data.pore_type.set i (some wc.2) } })

/-- Lines 238 and 239 of the loop body. -/
def copy_calibration_fields (i : Nat) (row : ReadBatchRowInfo_t) (t : TransformState) :
    TransformState :=
  { t with row_data :=
      { t.row_data with
        calibration_offset := t.row_data.calibration_offset.set i (some row.calibration_offset)
        calibration_scale := t.row_data.calibration_scale.set i (some row.calibration_scale) } }

/-- Lines 248 to 259 of the loop body. -/
def copy_trailing_fields (i : Nat) (row : ReadBatchRowInfo_t) (t : TransformState) :
    TransformState :=
  { t with row_data :=
      { t.row_data with
        end_reason_forced := t.row_data.end_reason_forced.set i (some row.end_reason_forced)
        run_info_id := t.row_data.run_info_id.set i (some row.run_info)
        num_minknow_events := t.row_data.num_minknow_events.set i (some row.num_minknow_events)
        tracked_scaling_scale :=
          t.row_data.tracked_scaling_scale.set i (some row.tracked_scaling_scale)
        tracked_scaling_shift :=
          t.row_data.tracked_scaling_shift.set i (some row.tracked_scaling_shift)
        predicted_scaling_scale :=
          t.row_data.predicted_scaling_scale.set i (some row.predicted_scaling_scale)
        predicted_scaling_shift :=
          t.row_data.predicted_scaling_shift.set i (some row.predicted_scaling_shift)
        num_reads_since_mux_change :=
          t.row_data.num_reads_since_mux_change.set i (some row.num_reads_since_mux_change)
        time_since_mux_change :=
          t.row_data.time_since_mux_change.set i (some row.time_since_mux_change) } }

/-- One iteration of the loop of `transform_read_data_batch_array`, for row `i`.  The
`assert` on the two advancing pointers compares addresses of different allocations and is
taken to hold. -/
def transform_row {σ : Type} (L : Pod5Lib σ) (fuel : Nat) (batch writer : Nat) (i : Nat)
    (row : ReadBatchRowInfo_t) (w : World σ) (t : TransformState) :
    Outcome (World σ × TransformState) (World σ × TransformState) :=
  let t1 := copy_leading_fields i row t
  match pod5_get_pore_wrapped L fuel batch row.pore_type w with
  | Outcome.out_of_fuel => Outcome.out_of_fuel
  | Outcome.threw w1 => Outcome.threw (w1, t1)
  | Outcome.returned (w1, pore) =>
    let wt := intern_pore_type L writer i pore.str w1 t1
    let t2 := copy_calibration_fields i row wt.2
    let slot : Option Nat := (t2.row_data.end_reason[t2.end_reason]?).join
    match pod5_get_end_reason_wrapped L fuel batch row.end_reason slot wt.1 with
    | Outcome.out_of_fuel => Outcome.out_of_fuel
    | Outcome.threw w2 => Outcome.threw (w2, t2)
    | Outcome.returned (w2, er) =>
      let t3 : TransformState :=
        { t2 with
          row_data :=
            { t2.row_data with end_reason := t2.row_data.end_reason.set t2.end_reason er.value }
          end_reason := t2.end_reason + 1 }
      let w3 : World σ := { w2 with heap := free_ptr er.str w2.heap }
      Outcome.returned (w3, copy_trailing_fields i row t3)

/-- The loop `for (i = 0; i < record_count; i++)` from index `i` on, over the rows
`in_data[i], in_data[i+1], ...` that remain. -/
def transform_rows {σ : Type} (L : Pod5Lib σ) (fuel : Nat) (batch writer : Nat) :
    Nat → List ReadBatchRowInfo_t → World σ → TransformState →
      Outcome (World σ × TransformState) (World σ × TransformState)
  | _, [], w, t => Outcome.returned (w, t)
  | i, row :: rest, w, t =>
    match transform_row L fuel batch writer i row w t with
    | Outcome.out_of_fuel => Outcome.out_of_fuel
    | Outcome.threw e => Outcome.threw e
    | Outcome.returned (w1, t1) => transform_rows L fuel batch writer (i + 1) rest w1 t1

/-- Function `transform_read_data_batch_array`; `record_count` is the length of `in_data`.
On return the result carries the filled `row_data`. -/
def transform_read_data_batch_array {σ : Type} (L : Pod5Lib σ) (fuel : Nat)
    (in_data : List ReadBatchRowInfo_t) (batch writer : Nat) (w : World σ) :
    Outcome (World σ × ReadBatchRowInfoArray_t) (World σ × TransformState) :=
  let t0 : TransformState :=
    { row_data := alloc_columns in_data.length, read_id := 0, end_reason := 0 }
  match transform_rows L fuel batch writer 0 in_data w t0 with
  | Outcome.out_of_fuel => Outcome.out_of_fuel
  | Outcome.threw e => Outcome.threw e
  | Outcome.returned (w1, t1) => Outcome.returned (w1, t1.row_data)

/-! ## Copy driver (`main`) -/

/-- The three local arrays `main` fills per batch. -/
structure LoadedRows where
  read_record_batch_array : List ReadBatchRowInfo_t
  sample_count : List Nat
  signal : List (List Int)
deriving DecidableEq, Repr

/-- The inner loop of `main` (lines 391 to 409): `remaining` rows are still to be loaded,
the next one is `current_batch_row`. -/
def main_load_rows {σ : Type} (L : Pod5Lib σ) (reader current_batch : Nat) :
    Nat → Nat → World σ → LoadedRows → World σ × LoadedRows
  | 0, _, w, a => (w, a)
  | remaining + 1, current_batch_row, w, a =>
    let r1 := L.pod5_get_read_batch_row_info_data w.lib current_batch current_batch_row
    let w1 := LOG_PROGRAM_ERROR L r1.1.1 { w with lib := r1.2 }
    let r2 := L.pod5_get_read_complete_sample_count w1.lib reader current_batch current_batch_row
    let w2 := LOG_PROGRAM_ERROR L r2.1.1 { w1 with lib := r2.2 }
    let sample_count := r2.1.2
    let r3 :=
      L.pod5_get_read_complete_signal w2.lib reader current_batch current_batch_row sample_count
    let w3 := LOG_PROGRAM_ERROR L r3.1.1 { w2 with lib := r3.2 }
    main_load_rows L reader current_batch remaining (current_batch_row + 1) w3
      { read_record_batch_array := a.read_record_batch_array ++ [r1.1.2]
        sample_count := a.sample_count ++ [sample_count]
        signal := a.signal ++ [r3.1.2] }

/-- The array `uint32_t signal_length[]` of `main` (lines 411 to 415): each `size_t`
count converted to 32 bits. -/
def main_signal_length (sample_count : List Nat) : List Nat :=
  sample_count.map (fun c => c % UINT32_RANGE)

/-- What the first two calls of a batch iteration deliver: the batch handle and its row
count. -/
structure OpenedBatch (σ : Type) where
  world : World σ
  current_batch : Nat
  batch_row_count : Nat

/-- Lines 383 to 386 of `main`: fetch the batch and its row count. -/
def main_open_batch {σ : Type} (L : Pod5Lib σ) (reader : Nat) (current_batch_idx : Nat)
    (w : World σ) : OpenedBatch σ :=
  let b := L.pod5_get_read_batch w.lib reader current_batch_idx
  let w1 := LOG_PROGRAM_ERROR L b.1.1 { w with lib := b.2 }
  let c := L.pod5_get_read_batch_row_count w1.lib b.1.2
  let w2 := LOG_PROGRAM_ERROR L c.1.1 { w1 with lib := c.2 }
  { world := w2, current_batch := b.1.2, batch_row_count := c.1.2 }

/-- The rows, sample counts and signals `main` loads for batch `current_batch_idx`
(lines 383 to 409). -/
def main_loaded {σ : Type} (L : Pod5Lib σ) (reader : Nat) (current_batch_idx : Nat)
    (w : World σ) : World σ × LoadedRows :=
  let o := main_open_batch L reader current_batch_idx w
  main_load_rows L reader o.current_batch o.batch_row_count 0 o.world
    { read_record_batch_array := [], sample_count := [], signal := [] }

/-- Lines 419 to 429 of `main`: hand the batch to `pod5_add_reads_data`, then release it.
The column arrays and the signal buffers released here are not tracked in `heap`. -/
def main_append_batch {σ : Type} (L : Pod5Lib σ) (writer current_batch : Nat)
    (call : AppendCall) (w : World σ) : World σ :=
  let a := L.pod5_add_reads_data w.lib writer call
  let w1 := LOG_PROGRAM_ERROR L a.1 { w with lib := a.2, appended := w.appended ++ [call] }
  let f := L.pod5_free_read_batch w1.lib current_batch
  LOG_PROGRAM_ERROR L f.1 { w1 with lib := f.2 }

/-- One iteration of the batch loop of `main` (lines 383 to 429). -/
def main_copy_batch {σ : Type} (L : Pod5Lib σ) (fuel : Nat) (reader writer : Nat)
    (current_batch_idx : Nat) (w : World σ) : Outcome (World σ) (World σ × TransformState) :=
  let o := main_open_batch L reader current_batch_idx w
  let loaded := main_loaded L reader current_batch_idx w
  let signal_length := main_signal_length loaded.2.sample_count
  match transform_read_data_batch_array L fuel loaded.2.read_record_batch_array
      o.current_batch writer loaded.1 with
  | Outcome.out_of_fuel => Outcome.out_of_fuel
  | Outcome.threw e => Outcome.threw e
  | Outcome.returned (w3, flattened_array) =>
    Outcome.returned
      (main_append_batch L writer o.current_batch
        { row_count := o.batch_row_count, row_data := flattened_array,
          signal := loaded.2.signal, signal_length := signal_length } w3)

/-- The batch loop of `main` (line 381): `remaining` batches are still to be copied, the
next one is `current_batch_idx`. -/
def main_copy_batches {σ : Type} (L : Pod5Lib σ) (fuel : Nat) (reader writer : Nat) :
    Nat → Nat → World σ → Outcome (World σ) (World σ × TransformState)
  | 0, _, w => Outcome.returned w
  | remaining + 1, current_batch_idx, w =>
    match main_copy_batch L fuel reader writer current_batch_idx w with
    | Outcome.out_of_fuel => Outcome.out_of_fuel
    | Outcome.threw e => Outcome.threw e
    | Outcome.returned w1 =>
      main_copy_batches L fuel reader writer remaining (current_batch_idx + 1) w1

/-! ## Command line (`main`, lines 317 to 347) -/

/-- Test `strncmp(a, b, n) == 0` on NUL-terminated strings. -/
def strncmp_eq (a b : String) (n : Nat) : Bool :=
  decide (a.toList.take n = b.toList.take n)

/-- How the argument handling of `main` ends. -/
inductive ArgOutcome where
  | exit_failure (cerr : List String)
  | exit_minus_one (cerr : List String)
  | proceed (cerr : List String) (comp_opt : CompressionOption)
deriving DecidableEq, Repr

/-- Lines 317 to 347 of `main`; `argc` is the length of `argv`.  The result `proceed`
carries the lines written to `std::cerr` and the `comp_opt` that goes into the writer
options of `pod5_create_file`. -/
def main_select_compression (argv : List String) : ArgOutcome :=
  let argc := argv.length
  let cerr : List String :=
    if argc > 4 then ["Ignoring extra arguments (only first 3 considered)\n"] else []
  if argc = 1 then ArgOutcome.exit_failure (cerr ++ ["No input file specified\n"])
  else if argc = 2 then ArgOutcome.exit_failure (cerr ++ ["No output file specified\n"])
  else
    let comp_opt := CompressionOption.DEFAULT_SIGNAL_COMPRESSION
    if argc = 4 then
      if strncmp_eq (argv.getD 3 "") "--VBZ" 5 then
        ArgOutcome.proceed cerr CompressionOption.VBZ_SIGNAL_COMPRESSION
      else if strncmp_eq (argv.getD 3 "") "--uncompressed" 14 then
        ArgOutcome.proceed cerr CompressionOption.UNCOMPRESSED_SIGNAL
      else ArgOutcome.exit_minus_one (cerr ++ ["Incorrect compression method"])
    else ArgOutcome.proceed cerr comp_opt

/-! ## Observations on outcomes -/

/-- The state in which a resolver call ended, whether it returned or threw. -/
def final_world {σ α : Type} : Outcome (World σ × α) (World σ) → Option (World σ)
  | Outcome.returned a => some a.1
  | Outcome.threw w => some w
  | Outcome.out_of_fuel => none

/-- The buffer sizes `256 * 2 ^ j, ..., 256 * 2 ^ (j + m - 1)` of `m` successive attempts. -/
def doubling_sizes (j m : Nat) : List Nat :=
  (List.range m).map (fun i => 256 * 2 ^ (j + i))

/-- The state right after one `pod5_get_pore_type` call. -/
def after_pore_lookup {σ : Type} (L : Pod5Lib σ) (batch : Nat) (pore_type : Int)
    (w : World σ) (str size : Nat) : World σ :=
  { w with
    lib := (L.pod5_get_pore_type w.lib batch pore_type size).2
    heap := store str (L.pod5_get_pore_type w.lib batch pore_type size).1.text w.heap
    lookups := w.lookups ++ [size] }

/-- The state after the buffer was doubled to `size2`. -/
def after_grow {σ : Type} (w : World σ) (str size2 : Nat) : World σ :=
  { w with heap := (realloc str size2 w.heap).2 }


/-- The state right after one `pod5_get_end_reason` call. -/
def after_end_reason_lookup {σ : Type} (L : Pod5Lib σ) (batch : Nat) (end_reason : Int)
    (w : World σ) (str size : Nat) : World σ :=
  { w with
    lib := (L.pod5_get_end_reason w.lib batch end_reason size).2
    heap := store str (L.pod5_get_end_reason w.lib batch end_reason size).1.text w.heap
    lookups := w.lookups ++ [size] }

/-- Content of `*end_reason_value` after a lookup that wrote `written` over `value`. -/
def written_value (written value : Option Nat) : Option Nat :=
  match written with
  | some v => some v
  | none => value

/-! ## Specification-side notions -/

/-- The distinct strings of a list in order of first appearance: the head is kept and its
later occurrences are dropped. -/
def distinct_in_order : List String → List String
  | [] => []
  | s :: rest => s :: (distinct_in_order rest).filter (fun x => decide (x ≠ s))

/-- The column arrays after the rows `done` have been processed and `k` rows remain: every
fixed-width column holds the fields of `done` followed by `k` unwritten slots; `pore` and
`er` are the slots written so far in the two dictionary-derived columns. -/
def partial_columns (done : List ReadBatchRowInfo_t) (pore : List (Option Int))
    (er : List (Option Nat)) (k : Nat) : ReadBatchRowInfoArray_t :=
  { read_id := done.map (fun r => some r.read_id) ++ List.replicate k none
    read_number := done.map (fun r => some r.read_number) ++ List.replicate k none
    start_sample := done.map (fun r => some r.start_sample) ++ List.replicate k none
    median_before := done.map (fun r => some r.median_before) ++ List.replicate k none
    channel := done.map (fun r => some r.channel) ++ List.replicate k none
    well := done.map (fun r => some r.well) ++ List.replicate k none
    pore_type := pore ++ List.replicate k none
    calibration_offset := done.map (fun r => some r.calibration_offset) ++ List.replicate k none
    calibration_scale := done.map (fun r => some r.calibration_scale) ++ List.replicate k none
    end_reason := er ++ List.replicate k none
    end_reason_forced := done.map (fun r => some r.end_reason_forced) ++ List.replicate k none
    run_info_id := done.map (fun r => some r.run_info) ++ List.replicate k none
    num_minknow_events := done.map (fun r => some r.num_minknow_events) ++ List.replicate k none
    tracked_scaling_scale :=
      done.map (fun r => some r.tracked_scaling_scale) ++ List.replicate k none
    tracked_scaling_shift :=
      done.map (fun r => some r.tracked_scaling_shift) ++ List.replicate k none
    predicted_scaling_scale :=
      done.map (fun r => some r.predicted_scaling_scale) ++ List.replicate k none
    predicted_scaling_shift :=
      done.map (fun r => some r.predicted_scaling_shift) ++ List.replicate k none
    num_reads_since_mux_change :=
      done.map (fun r => some r.num_reads_since_mux_change) ++ List.replicate k none
    time_since_mux_change :=
      done.map (fun r => some r.time_since_mux_change) ++ List.replicate k none }

/-! ## A table-driven library for concrete runs -/

/-- A source container given by tables: the answer of each string lookup by batch, code and
buffer size, the rows of each batch, and the sample count and signal of each row. -/
structure Scenario where
  pore_type : Nat → Int → Nat → StrLookup
  end_reason : Nat → Int → Nat → EndReasonLookup
  rows : Nat → List ReadBatchRowInfo_t
  samples : Nat → Nat → Nat × List Int

/-- A row whose fields are all zero. -/
def zero_row : ReadBatchRowInfo_t :=
  { read_id := List.replicate 16 0, read_number := 0, start_sample := 0, median_before := 0,
    channel := 0, well := 0, pore_type := 0, calibration_offset := 0, calibration_scale := 0,
    end_reason := 0, end_reason_forced := 0, run_info := 0, num_minknow_events := 0,
    tracked_scaling_scale := 0, tracked_scaling_shift := 0, predicted_scaling_scale := 0,
    predicted_scaling_shift := 0, num_reads_since_mux_change := 0,
    time_since_mux_change := 0 }

/-- The library over a scenario.  Its state counts the pore types registered so far, and
`pod5_add_pore` hands out the codes 0, 1, 2, ... in registration order; the batch handle of
batch `idx` is `idx`; no call other than a string lookup fails. -/
def Scenario.lib (S : Scenario) : Pod5Lib Nat :=
  { pod5_get_error_string := fun _ => "pod5 error"
    pod5_get_pore_type := fun s batch code size => (S.pore_type batch code size, s)
    pod5_get_end_reason := fun s batch code size => (S.end_reason batch code size, s)
    pod5_add_pore := fun s _ _ => ((pod5_error_t.POD5_OK, (s : Int)), s + 1)
    pod5_get_read_batch := fun s _ idx => ((pod5_error_t.POD5_OK, idx), s)
    pod5_get_read_batch_row_count := fun s batch =>
      ((pod5_error_t.POD5_OK, (S.rows batch).length), s)
    pod5_get_read_batch_row_info_data := fun s batch row =>
      ((pod5_error_t.POD5_OK, (S.rows batch).getD row zero_row), s)
    pod5_get_read_complete_sample_count := fun s _ batch row =>
      ((pod5_error_t.POD5_OK, (S.samples batch row).1), s)
    pod5_get_read_complete_signal := fun s _ batch row _ =>
      ((pod5_error_t.POD5_OK, (S.samples batch row).2), s)
    pod5_add_reads_data := fun s _ _ => (pod5_error_t.POD5_OK, s)
    pod5_free_read_batch := fun s _ => (pod5_error_t.POD5_OK, s) }

/-- A lookup that succeeds exactly when the buffer is larger than the text, and otherwise
reports that the buffer is too small; it never changes the size argument. -/
def fitting_lookup (text : String) (size : Nat) : StrLookup :=
  if text.length < size then { error := pod5_error_t.POD5_OK, size := size, text := text }
  else { error := pod5_error_t.POD5_ERROR_STRING_NOT_LONG_ENOUGH, size := size, text := "" }

/-- An end-reason lookup over `fitting_lookup` that writes the enum value on success. -/
def fitting_end_reason (text : String) (value : Nat) (size : Nat) : EndReasonLookup :=
  if text.length < size then
    { error := pod5_error_t.POD5_OK, size := size, text := text, value := some value }
  else
    { error := pod5_error_t.POD5_ERROR_STRING_NOT_LONG_ENOUGH, size := size, text := "",
      value := none }

/-- The scenario of the specification: two batches of 3 and 2 rows with pore types
`pore_A, pore_B, pore_A` and `pore_B, pore_C`; `pore_B` has source code 1 in the first
batch and 0 in the second. -/
def two_batches : Scenario :=
  { pore_type := fun batch code size =>
      fitting_lookup
        (if batch = 0 then (if code = 0 then "pore_A" else "pore_B")
         else (if code = 0 then "pore_B" else "pore_C")) size
    end_reason := fun _ _ size => fitting_end_reason "signal_positive" 1 size
    rows := fun batch =>
      if batch = 0 then
        [{ zero_row with read_number := 1, pore_type := 0 },
         { zero_row with read_number := 2, pore_type := 1 },
         { zero_row with read_number := 3, pore_type := 0 }]
      else
        [{ zero_row with read_number := 4, pore_type := 0 },
         { zero_row with read_number := 5, pore_type := 1 }]
    samples := fun _ row => (2, [(row : Int), -1]) }

/-- The tables a string resolver must leave alone: the cache and the ghost records other
than `lookups`. -/
def Untouched {σ : Type} (w w1 : World σ) : Prop :=
  w1.pore_type_cache = w.pore_type_cache ∧ w1.registered = w.registered ∧
    w1.resolved = w.resolved ∧ w1.appended = w.appended

/-- The cache holds exactly what was registered, and the registered strings are the
distinct resolved strings in order of first appearance. -/
def Coherent {σ : Type} (w : World σ) : Prop :=
  w.pore_type_cache = w.registered ∧
    w.registered.map Prod.fst = distinct_in_order w.resolved

/-- The pore-type string the interner reads from the resolver's buffer. -/
def interned_key {σ : Type} (pore_type_str : Option Nat) (w : World σ) : String :=
  match pore_type_str with
  | some p => load p w.heap
  | none => ""

/-- The result of a call that returned normally. -/
def Outcome.result {α ε : Type} : Outcome α ε → Option α
  | Outcome.returned a => some a
  | Outcome.threw _ => none
  | Outcome.out_of_fuel => none

/-- The pore-type codes handed to the destination, over all `pod5_add_reads_data` calls in
order. -/
def appended_pore_types {σ : Type} (w : World σ) : List (Option Int) :=
  (w.appended.map (fun c => c.row_data.pore_type)).flatten

/-- The invariant of the batch loop: the tables are coherent and every code handed to the
destination is the cached code of the string resolved for its row. -/
def Interned {σ : Type} (w : World σ) : Prop :=
  Coherent w ∧ appended_pore_types w = w.resolved.map (map_find w.pore_type_cache)

/-- A pore-type name of 300 characters. -/
def long_pore_name : String := String.mk (List.replicate 300 'p')

/-- An end-reason name of 600 characters. -/
def long_end_reason_name : String := String.mk (List.replicate 600 'e')

/-- A scenario with one batch of one row whose pore-type name has 300 characters and whose
end-reason name has 600. -/
def long_names : Scenario :=
  { pore_type := fun _ _ size => fitting_lookup long_pore_name size
    end_reason := fun _ _ size => fitting_end_reason long_end_reason_name 3 size
    rows := fun _ => [zero_row]
    samples := fun _ _ => (1, [7]) }

/-- The state carried by a call that ended in an exception. -/
def Outcome.thrown {α ε : Type} : Outcome α ε → Option ε
  | Outcome.returned _ => none
  | Outcome.threw e => some e
  | Outcome.out_of_fuel => none

/-- A scenario whose pore-type name is longer than any buffer tried: every lookup answers
"buffer too small" and leaves the size argument unchanged; what the buffer then holds is
not the name (here the text `junk`). -/
def oversized : Scenario :=
  { pore_type := fun _ _ size =>
      { error := pod5_error_t.POD5_ERROR_STRING_NOT_LONG_ENOUGH, size := size, text := "junk" }
    end_reason := fun _ _ size =>
      { error := pod5_error_t.POD5_ERROR_STRING_NOT_LONG_ENOUGH, size := size, text := "junk",
        value := none }
    rows := fun _ => [zero_row]
    samples := fun _ _ => (1, [7]) }

/-- A scenario with one batch of three rows; the pore-type lookup fails with an error other
than "buffer too small" for source code 0, which the second row carries. -/
def pore_fails : Scenario :=
  { pore_type := fun _ code size =>
      if code = 0 then { error := pod5_error_t.POD5_ERROR_OTHER 5, size := size, text := "" }
      else fitting_lookup "pore_B" size
    end_reason := fun _ _ size => fitting_end_reason "unknown" 0 size
    rows := fun _ =>
      [{ zero_row with read_number := 1, pore_type := 1 },
       { zero_row with read_number := 2, pore_type := 0 },
       { zero_row with read_number := 3, pore_type := 1 }]
    samples := fun _ _ => (1, [7]) }

/-- A scenario with one row whose end-reason lookup fails with an error other than "buffer
too small". -/
def end_reason_fails : Scenario :=
  { pore_type := fun _ _ size => fitting_lookup "pore_A" size
    end_reason := fun _ _ size =>
      { error := pod5_error_t.POD5_ERROR_OTHER 7, size := size, text := "", value := none }
    rows := fun _ => [zero_row]
    samples := fun _ _ => (1, [7]) }

/-- A scenario with one row of `2 ^ 32` samples. -/
def huge_signal : Scenario :=
  { pore_type := fun _ _ size => fitting_lookup "pore_A" size
    end_reason := fun _ _ size => fitting_end_reason "unknown" 0 size
    rows := fun _ => [zero_row]
    samples := fun _ _ => (2 ^ 32, List.replicate (2 ^ 32) 0) }

/-- A scenario like `pore_fails` whose failing lookup first answers "buffer too small" at
256 bytes and then, at 512 bytes, an error other than "buffer too small". -/
def pore_fails_late : Scenario :=
  { pore_type := fun _ code size =>
      if code = 0 then
        (if size < 512 then
          { error := pod5_error_t.POD5_ERROR_STRING_NOT_LONG_ENOUGH, size := size, text := "" }
         else { error := pod5_error_t.POD5_ERROR_OTHER 5, size := size, text := "" })
      else fitting_lookup "pore_B" size
    end_reason := fun _ _ size => fitting_end_reason "unknown" 0 size
    rows := fun _ =>
      [{ zero_row with read_number := 1, pore_type := 1 },
       { zero_row with read_number := 2, pore_type := 0 },
       { zero_row with read_number := 3, pore_type := 1 }]
    samples := fun _ _ => (1, [7]) }

/-! ## Basic facts -/

theorem max_pore_eq : MAX_PORE_TYPE_STRING_SIZE = 65536 := by decide

theorem max_end_reason_eq : MAX_END_REASON_STRING_SIZE = 65536 := by decide

theorem initial_size_eq : (16 <<< 4 : Nat) = 256 * 2 ^ 0 := by decide

theorem double_size (j : Nat) (hj : j ≤ 8) :
    ((256 * 2 ^ j) <<< 1) % SIZE_T_RANGE = 256 * 2 ^ (j + 1) := by
  have h : 256 * 2 ^ (j + 1) ≤ 256 * 2 ^ 9 :=
    Nat.mul_le_mul_left _ (Nat.pow_le_pow_right (by decide) (by omega))
  rw [Nat.shiftLeft_eq, SIZE_T_RANGE, pow_succ, Nat.mod_eq_of_lt]
  · ring
  · have : (256 * 2 ^ 9 : Nat) < 2 ^ 64 := by decide
    rw [pow_succ] at h
    omega

theorem size_le_max_iff (j : Nat) : 256 * 2 ^ j ≤ 65536 ↔ j ≤ 8 := by
  constructor
  · intro h
    by_contra hc
    have h9 : 256 * 2 ^ 9 ≤ 256 * 2 ^ j :=
      Nat.mul_le_mul_left _ (Nat.pow_le_pow_right (by decide) (by omega))
    have : (256 * 2 ^ 9 : Nat) = 131072 := by decide
    omega
  · intro h
    have h8 : 256 * 2 ^ j ≤ 256 * 2 ^ 8 :=
      Nat.mul_le_mul_left _ (Nat.pow_le_pow_right (by decide) h)
    have : (256 * 2 ^ 8 : Nat) = 65536 := by decide
    omega

theorem doubling_sizes_succ (j m : Nat) :
    doubling_sizes j (m + 1) = 256 * 2 ^ j :: doubling_sizes (j + 1) m := by
  unfold doubling_sizes
  rw [List.range_succ_eq_map]
  simp only [List.map_cons, List.map_map, Nat.add_zero]
  congr 1
  apply List.map_congr_left
  intro i _
  simp only [Function.comp_apply]
  congr 2
  omega

theorem doubling_sizes_one (j : Nat) : doubling_sizes j 1 = [256 * 2 ^ j] := by
  rw [doubling_sizes_succ]
  rfl

theorem doubling_sizes_le (j m : Nat) (h : j + m ≤ 9) :
    ∀ n ∈ doubling_sizes j m, n ≤ 65536 := by
  intro n hn
  unfold doubling_sizes at hn
  rcases List.mem_map.mp hn with ⟨i, hi, rfl⟩
  rw [List.mem_range] at hi
  exact (size_le_max_iff _).mpr (by omega)

/-! ## One iteration of the resolver loops -/

theorem pore_loop_ok {σ : Type} (L : Pod5Lib σ) (batch : Nat) (pore_type : Int) (fuel : Nat)
    (w : World σ) (str size : Nat)
    (h : (L.pod5_get_pore_type w.lib batch pore_type size).1.error = pod5_error_t.POD5_OK) :
    pod5_get_pore_loop L batch pore_type (fuel + 1) w str size =
      Outcome.returned (after_pore_lookup L batch pore_type w str size,
        { str := some str, size := (L.pod5_get_pore_type w.lib batch pore_type size).1.size }) := by
  simp [pod5_get_pore_loop, h, retry_condition, after_pore_lookup]

theorem pore_loop_other {σ : Type} (L : Pod5Lib σ) (batch : Nat) (pore_type : Int)
    (fuel : Nat) (w : World σ) (str size : Nat) (e : Nat)
    (h : (L.pod5_get_pore_type w.lib batch pore_type size).1.error =
      pod5_error_t.POD5_ERROR_OTHER e) :
    pod5_get_pore_loop L batch pore_type (fuel + 1) w str size =
      Outcome.threw (LOG_PROGRAM_ERROR L (pod5_error_t.POD5_ERROR_OTHER e)
        { after_pore_lookup L batch pore_type w str size with
          heap := free str (after_pore_lookup L batch pore_type w str size).heap }) := by
  simp [pod5_get_pore_loop, h, after_pore_lookup]

theorem pore_loop_short {σ : Type} (L : Pod5Lib σ) (batch : Nat) (pore_type : Int)
    (fuel : Nat) (w : World σ) (str size : Nat)
    (h : (L.pod5_get_pore_type w.lib batch pore_type size).1.error =
      pod5_error_t.POD5_ERROR_STRING_NOT_LONG_ENOUGH) :
    pod5_get_pore_loop L batch pore_type (fuel + 1) w str size =
      if ((L.pod5_get_pore_type w.lib batch pore_type size).1.size <<< 1) % SIZE_T_RANGE
          ≤ MAX_PORE_TYPE_STRING_SIZE then
        pod5_get_pore_loop L batch pore_type fuel
          (after_grow (after_pore_lookup L batch pore_type w str size) str
            (((L.pod5_get_pore_type w.lib batch pore_type size).1.size <<< 1) % SIZE_T_RANGE))
          (after_pore_lookup L batch pore_type w str size).heap.length
          (((L.pod5_get_pore_type w.lib batch pore_type size).1.size <<< 1) % SIZE_T_RANGE)
      else
        Outcome.returned
          (after_grow (after_pore_lookup L batch pore_type w str size) str
            (((L.pod5_get_pore_type w.lib batch pore_type size).1.size <<< 1) % SIZE_T_RANGE),
            { str := some (after_pore_lookup L batch pore_type w str size).heap.length
              size :=
                ((L.pod5_get_pore_type w.lib batch pore_type size).1.size <<< 1) %
                  SIZE_T_RANGE }) := by
  simp [pod5_get_pore_loop, h, retry_condition, after_pore_lookup, after_grow, realloc]

theorem end_reason_loop_ok {σ : Type} (L : Pod5Lib σ) (batch : Nat) (end_reason : Int)
    (fuel : Nat) (w : World σ) (str size : Nat) (value : Option Nat)
    (h : (L.pod5_get_end_reason w.lib batch end_reason size).1.error = pod5_error_t.POD5_OK) :
    pod5_get_end_reason_loop L batch end_reason (fuel + 1) w str size value =
      Outcome.returned (after_end_reason_lookup L batch end_reason w str size,
        { str := some str
          size := (L.pod5_get_end_reason w.lib batch end_reason size).1.size
          value :=
            written_value (L.pod5_get_end_reason w.lib batch end_reason size).1.value value }) := by
  simp only [pod5_get_end_reason_loop, h, retry_condition, after_end_reason_lookup,
    written_value]
  simp

theorem end_reason_loop_other {σ : Type} (L : Pod5Lib σ) (batch : Nat) (end_reason : Int)
    (fuel : Nat) (w : World σ) (str size : Nat) (value : Option Nat) (e : Nat)
    (h : (L.pod5_get_end_reason w.lib batch end_reason size).1.error =
      pod5_error_t.POD5_ERROR_OTHER e) :
    pod5_get_end_reason_loop L batch end_reason (fuel + 1) w str size value =
      Outcome.returned
        (LOG_PROGRAM_ERROR L (pod5_error_t.POD5_ERROR_OTHER e)
          { after_end_reason_lookup L batch end_reason w str size with
            heap := free str (after_end_reason_lookup L batch end_reason w str size).heap },
          { str := some str
            size := (L.pod5_get_end_reason w.lib batch end_reason size).1.size
            value :=
              written_value (L.pod5_get_end_reason w.lib batch end_reason size).1.value
                value }) := by
  simp only [pod5_get_end_reason_loop, h, after_end_reason_lookup, written_value]
  simp

theorem end_reason_loop_short {σ : Type} (L : Pod5Lib σ) (batch : Nat) (end_reason : Int)
    (fuel : Nat) (w : World σ) (str size : Nat) (value : Option Nat)
    (h : (L.pod5_get_end_reason w.lib batch end_reason size).1.error =
      pod5_error_t.POD5_ERROR_STRING_NOT_LONG_ENOUGH) :
    pod5_get_end_reason_loop L batch end_reason (fuel + 1) w str size value =
      if ((L.pod5_get_end_reason w.lib batch end_reason size).1.size <<< 1) % SIZE_T_RANGE
          ≤ MAX_END_REASON_STRING_SIZE then
        pod5_get_end_reason_loop L batch end_reason fuel
          (after_grow (after_end_reason_lookup L batch end_reason w str size) str
            (((L.pod5_get_end_reason w.lib batch end_reason size).1.size <<< 1) % SIZE_T_RANGE))
          (after_end_reason_lookup L batch end_reason w str size).heap.length
          (((L.pod5_get_end_reason w.lib batch end_reason size).1.size <<< 1) % SIZE_T_RANGE)
          (written_value (L.pod5_get_end_reason w.lib batch end_reason size).1.value value)
      else
        Outcome.returned
          (after_grow (after_end_reason_lookup L batch end_reason w str size) str
            (((L.pod5_get_end_reason w.lib batch end_reason size).1.size <<< 1) %
              SIZE_T_RANGE),
            { str := some (after_end_reason_lookup L batch end_reason w str size).heap.length
              size :=
                ((L.pod5_get_end_reason w.lib batch end_reason size).1.size <<< 1) %
                  SIZE_T_RANGE
              value :=
                written_value (L.pod5_get_end_reason w.lib batch end_reason size).1.value
                  value }) := by
  simp only [pod5_get_end_reason_loop, h, retry_condition, after_end_reason_lookup,
    after_grow, realloc, written_value]
  simp

/-! ## Bounded retries -/

theorem error_cases (e : pod5_error_t) :
    e = pod5_error_t.POD5_OK ∨ e = pod5_error_t.POD5_ERROR_STRING_NOT_LONG_ENOUGH ∨
      ∃ c, e = pod5_error_t.POD5_ERROR_OTHER c := by
  cases e with
  | POD5_OK => exact Or.inl rfl
  | POD5_ERROR_STRING_NOT_LONG_ENOUGH => exact Or.inr (Or.inl rfl)
  | POD5_ERROR_OTHER c => exact Or.inr (Or.inr ⟨c, rfl⟩)

theorem log_lookups {σ : Type} (L : Pod5Lib σ) (e : pod5_error_t) (w : World σ) :
    (LOG_PROGRAM_ERROR L e w).lookups = w.lookups := by
  unfold LOG_PROGRAM_ERROR
  split <;> rfl

theorem pore_loop_calls {σ : Type} (L : Pod5Lib σ)
    (hsize : ∀ s b c n, (L.pod5_get_pore_type s b c n).1.size = n)
    (batch : Nat) (pore_type : Int) :
    ∀ (fuel j : Nat) (w : World σ) (str : Nat), j ≤ 8 → 9 ≤ fuel + j →
      ∃ m w1, 1 ≤ m ∧ j + m ≤ 9 ∧
        final_world (pod5_get_pore_loop L batch pore_type fuel w str (256 * 2 ^ j)) = some w1 ∧
        w1.lookups = w.lookups ++ doubling_sizes j m := by
  intro fuel
  induction fuel with
  | zero => intro j w str hj hf; omega
  | succ fuel ih =>
    intro j w str hj hf
    rcases error_cases (L.pod5_get_pore_type w.lib batch pore_type (256 * 2 ^ j)).1.error with
      h | h | ⟨c, h⟩
    · refine ⟨1, after_pore_lookup L batch pore_type w str (256 * 2 ^ j), le_refl _, by omega,
        ?_, ?_⟩
      · rw [pore_loop_ok L batch pore_type fuel w str _ h]; rfl
      · simp [after_pore_lookup, doubling_sizes_one]
    · have hstep := pore_loop_short L batch pore_type fuel w str _ h
      rw [hsize, double_size j hj, max_pore_eq] at hstep
      by_cases hj1 : j + 1 ≤ 8
      · rw [if_pos ((size_le_max_iff _).mpr hj1)] at hstep
        obtain ⟨m, w1, hm, hjm, hfin, hl⟩ := ih (j + 1)
          (after_grow (after_pore_lookup L batch pore_type w str (256 * 2 ^ j)) str
            (256 * 2 ^ (j + 1)))
          (after_pore_lookup L batch pore_type w str (256 * 2 ^ j)).heap.length hj1 (by omega)
        refine ⟨m + 1, w1, by omega, by omega, ?_, ?_⟩
        · rw [hstep]; exact hfin
        · rw [hl, doubling_sizes_succ]
          simp [after_grow, after_pore_lookup]
      · rw [if_neg (fun hle => hj1 ((size_le_max_iff _).mp hle))] at hstep
        refine ⟨1, after_grow (after_pore_lookup L batch pore_type w str (256 * 2 ^ j)) str
            (256 * 2 ^ (j + 1)), le_refl _, by omega, ?_, ?_⟩
        · rw [hstep]; rfl
        · simp [after_grow, after_pore_lookup, doubling_sizes_one]
    · refine ⟨1, LOG_PROGRAM_ERROR L (pod5_error_t.POD5_ERROR_OTHER c)
          { after_pore_lookup L batch pore_type w str (256 * 2 ^ j) with
            heap := free str (after_pore_lookup L batch pore_type w str (256 * 2 ^ j)).heap },
          le_refl _, by omega, ?_, ?_⟩
      · rw [pore_loop_other L batch pore_type fuel w str _ c h]; rfl
      · simp [log_lookups, after_pore_lookup, doubling_sizes_one]

theorem end_reason_loop_calls {σ : Type} (L : Pod5Lib σ)
    (hsize : ∀ s b c n, (L.pod5_get_end_reason s b c n).1.size = n)
    (batch : Nat) (end_reason : Int) :
    ∀ (fuel j : Nat) (w : World σ) (str : Nat) (value : Option Nat), j ≤ 8 → 9 ≤ fuel + j →
      ∃ m w1, 1 ≤ m ∧ j + m ≤ 9 ∧
        final_world (pod5_get_end_reason_loop L batch end_reason fuel w str (256 * 2 ^ j) value)
          = some w1 ∧
        w1.lookups = w.lookups ++ doubling_sizes j m := by
  intro fuel
  induction fuel with
  | zero => intro j w str value hj hf; omega
  | succ fuel ih =>
    intro j w str value hj hf
    rcases error_cases (L.pod5_get_end_reason w.lib batch end_reason (256 * 2 ^ j)).1.error with
      h | h | ⟨c, h⟩
    · refine ⟨1, after_end_reason_lookup L batch end_reason w str (256 * 2 ^ j), le_refl _,
        by omega, ?_, ?_⟩
      · rw [end_reason_loop_ok L batch end_reason fuel w str _ value h]; rfl
      · simp [after_end_reason_lookup, doubling_sizes_one]
    · have hstep := end_reason_loop_short L batch end_reason fuel w str _ value h
      rw [hsize, double_size j hj, max_end_reason_eq] at hstep
      by_cases hj1 : j + 1 ≤ 8
      · rw [if_pos ((size_le_max_iff _).mpr hj1)] at hstep
        obtain ⟨m, w1, hm, hjm, hfin, hl⟩ := ih (j + 1)
          (after_grow (after_end_reason_lookup L batch end_reason w str (256 * 2 ^ j)) str
            (256 * 2 ^ (j + 1)))
          (after_end_reason_lookup L batch end_reason w str (256 * 2 ^ j)).heap.length
          (written_value (L.pod5_get_end_reason w.lib batch end_reason (256 * 2 ^ j)).1.value
            value) hj1 (by omega)
        refine ⟨m + 1, w1, by omega, by omega, ?_, ?_⟩
        · rw [hstep]; exact hfin
        · rw [hl, doubling_sizes_succ]
          simp [after_grow, after_end_reason_lookup]
      · rw [if_neg (fun hle => hj1 ((size_le_max_iff _).mp hle))] at hstep
        refine ⟨1, after_grow (after_end_reason_lookup L batch end_reason w str (256 * 2 ^ j)) str
            (256 * 2 ^ (j + 1)), le_refl _, by omega, ?_, ?_⟩
        · rw [hstep]; rfl
        · simp [after_grow, after_end_reason_lookup, doubling_sizes_one]
    · refine ⟨1, LOG_PROGRAM_ERROR L (pod5_error_t.POD5_ERROR_OTHER c)
          { after_end_reason_lookup L batch end_reason w str (256 * 2 ^ j) with
            heap := free str (after_end_reason_lookup L batch end_reason w str (256 * 2 ^ j)).heap },
          le_refl _, by omega, ?_, ?_⟩
      · rw [end_reason_loop_other L batch end_reason fuel w str _ value c h]; rfl
      · simp [log_lookups, after_end_reason_lookup, doubling_sizes_one]

/-! ## Memory facts -/

theorem length_updateAt {α : Type} (f : α → α) (p : Nat) (l : List α) :
    (updateAt f p l).length = l.length := by
  induction l generalizing p with
  | nil => cases p <;> rfl
  | cons b bs ih =>
    cases p with
    | zero => rfl
    | succ p => simp [updateAt, ih]

theorem length_free (p : Nat) (h : List Buffer) : (free p h).length = h.length :=
  length_updateAt _ p h

theorem realloc_new (p n : Nat) (h : List Buffer) :
    (realloc p n h).2[h.length]? = some { size := n, text := load p h, released := 0 } := by
  simp [realloc, List.getElem?_append_right, length_free]

theorem load_realloc (p n : Nat) (h : List Buffer) :
    load h.length (realloc p n h).2 = load p h := by
  have h1 : load h.length (realloc p n h).2 =
      match (realloc p n h).2[h.length]? with
      | some b => b.text
      | none => "" := rfl
  rw [h1, realloc_new]

theorem map_find_none_iff (m : List (String × Int)) (key : String) :
    map_find m key = none ↔ key ∉ m.map Prod.fst := by
  induction m with
  | nil => simp [map_find]
  | cons kv rest ih =>
    obtain ⟨k, v⟩ := kv
    by_cases hk : k = key
    · simp [map_find, hk]
    · simp only [map_find, if_neg hk, ih, List.map_cons, List.mem_cons, not_or]
      constructor
      · intro h; exact ⟨fun he => hk he.symm, h⟩
      · intro h; exact h.2

theorem map_find_append_of_some (m more : List (String × Int)) (key : String) (v : Int)
    (h : map_find m key = some v) : map_find (m ++ more) key = some v := by
  induction m with
  | nil => simp [map_find] at h
  | cons kv rest ih =>
    obtain ⟨k, v1⟩ := kv
    by_cases hk : k = key
    · simp only [map_find, if_pos hk] at h
      simp [map_find, hk, h]
    · simp only [map_find, if_neg hk] at h
      simp only [List.cons_append, map_find, if_neg hk]
      exact ih h

theorem map_find_append_new (m : List (String × Int)) (key : String) (v : Int)
    (h : map_find m key = none) : map_find (m ++ [(key, v)]) key = some v := by
  induction m with
  | nil => simp [map_find]
  | cons kv rest ih =>
    obtain ⟨k, v1⟩ := kv
    by_cases hk : k = key
    · simp [map_find, hk] at h
    · simp only [map_find, if_neg hk] at h
      simp only [List.cons_append, map_find, if_neg hk]
      exact ih h

theorem map_insert_of_none (m : List (String × Int)) (key : String) (v : Int)
    (h : map_find m key = none) : map_insert m key v = m ++ [(key, v)] := by
  simp [map_insert, h]

theorem mem_distinct_in_order (l : List String) (s : String) :
    s ∈ distinct_in_order l ↔ s ∈ l := by
  induction l with
  | nil => simp [distinct_in_order]
  | cons a rest ih =>
    simp only [distinct_in_order, List.mem_cons, List.mem_filter, ih, decide_eq_true_eq]
    constructor
    · rintro (h | ⟨h, _⟩)
      · exact Or.inl h
      · exact Or.inr h
    · intro h
      by_cases hs : s = a
      · exact Or.inl hs
      · rcases h with h | h
        · exact Or.inl h
        · exact Or.inr ⟨h, hs⟩

theorem nodup_distinct_in_order (l : List String) : (distinct_in_order l).Nodup := by
  induction l with
  | nil => simp [distinct_in_order]
  | cons a rest ih =>
    simp only [distinct_in_order, List.nodup_cons, List.mem_filter, decide_eq_true_eq]
    exact ⟨fun h => h.2 rfl, ih.filter _⟩

theorem distinct_in_order_snoc (l : List String) (s : String) :
    distinct_in_order (l ++ [s]) =
      if s ∈ l then distinct_in_order l else distinct_in_order l ++ [s] := by
  induction l with
  | nil => simp [distinct_in_order]
  | cons a rest ih =>
    have hunf : distinct_in_order (a :: rest ++ [s]) =
        a :: (distinct_in_order (rest ++ [s])).filter (fun x => decide (x ≠ a)) := rfl
    have hunf2 : distinct_in_order (a :: rest) =
        a :: (distinct_in_order rest).filter (fun x => decide (x ≠ a)) := rfl
    rw [hunf, hunf2, ih]
    by_cases hs : s = a
    · subst hs
      by_cases hr : s ∈ rest
      · simp [hr]
      · simp [hr, List.filter_append]
    · by_cases hr : s ∈ rest
      · simp [hr, hs]
      · simp [hr, hs, List.filter_append]

theorem length_distinct_in_order (l : List String) :
    (distinct_in_order l).length = l.toFinset.card := by
  rw [← List.toFinset_card_of_nodup (nodup_distinct_in_order l)]
  congr 1
  ext s
  simp [mem_distinct_in_order]

/-! ## What the resolvers leave alone -/

theorem untouched_refl {σ : Type} (w : World σ) : Untouched w w :=
  ⟨rfl, rfl, rfl, rfl⟩

theorem untouched_trans {σ : Type} {a b c : World σ} (h1 : Untouched a b)
    (h2 : Untouched b c) : Untouched a c :=
  ⟨h2.1.trans h1.1, h2.2.1.trans h1.2.1, h2.2.2.1.trans h1.2.2.1, h2.2.2.2.trans h1.2.2.2⟩

theorem untouched_log {σ : Type} (L : Pod5Lib σ) (e : pod5_error_t) (w : World σ) :
    Untouched w (LOG_PROGRAM_ERROR L e w) := by
  unfold LOG_PROGRAM_ERROR
  split
  · exact ⟨rfl, rfl, rfl, rfl⟩
  · exact untouched_refl w

theorem log_other {σ : Type} (L : Pod5Lib σ) (c : Nat) (w : World σ) :
    LOG_PROGRAM_ERROR L (pod5_error_t.POD5_ERROR_OTHER c) w =
      { w with cerr := w.cerr ++ [L.pod5_get_error_string w.lib] } := by
  simp [LOG_PROGRAM_ERROR]

theorem log_ok {σ : Type} (L : Pod5Lib σ) (w : World σ) :
    LOG_PROGRAM_ERROR L pod5_error_t.POD5_OK w = w := by
  simp [LOG_PROGRAM_ERROR]

theorem pore_loop_frame {σ : Type} (L : Pod5Lib σ) (batch : Nat) (pore_type : Int) :
    ∀ (fuel : Nat) (w : World σ) (str size : Nat),
      (∀ w1 out, pod5_get_pore_loop L batch pore_type fuel w str size =
          Outcome.returned (w1, out) →
        Untouched w w1 ∧ w1.cerr = w.cerr ∧ ∃ p, out.str = some p) ∧
      (∀ w1, pod5_get_pore_loop L batch pore_type fuel w str size = Outcome.threw w1 →
        Untouched w w1 ∧ w1.cerr = w.cerr ++ [L.pod5_get_error_string w1.lib]) := by
  intro fuel
  induction fuel with
  | zero =>
    intro w str size
    constructor
    · intro w1 out h; simp [pod5_get_pore_loop] at h
    · intro w1 h; simp [pod5_get_pore_loop] at h
  | succ fuel ih =>
    intro w str size
    rcases error_cases (L.pod5_get_pore_type w.lib batch pore_type size).1.error with
      h | h | ⟨c, h⟩
    · rw [pore_loop_ok L batch pore_type fuel w str size h]
      constructor
      · intro w1 out heq
        injection heq with heq
        injection heq with h1 h2
        subst h1 h2
        exact ⟨⟨rfl, rfl, rfl, rfl⟩, rfl, str, rfl⟩
      · intro w1 heq; cases heq
    · rw [pore_loop_short L batch pore_type fuel w str size h]
      have hbase : Untouched w (after_grow (after_pore_lookup L batch pore_type w str size) str
          (((L.pod5_get_pore_type w.lib batch pore_type size).1.size <<< 1) % SIZE_T_RANGE)) :=
        ⟨rfl, rfl, rfl, rfl⟩
      split
      · obtain ⟨ih1, ih2⟩ := ih
          (after_grow (after_pore_lookup L batch pore_type w str size) str
            (((L.pod5_get_pore_type w.lib batch pore_type size).1.size <<< 1) % SIZE_T_RANGE))
          (after_pore_lookup L batch pore_type w str size).heap.length
          (((L.pod5_get_pore_type w.lib batch pore_type size).1.size <<< 1) % SIZE_T_RANGE)
        constructor
        · intro w1 out heq
          obtain ⟨hu, hc, hp⟩ := ih1 w1 out heq
          exact ⟨untouched_trans hbase hu, hc, hp⟩
        · intro w1 heq
          obtain ⟨hu, hc⟩ := ih2 w1 heq
          exact ⟨untouched_trans hbase hu, hc⟩
      · constructor
        · intro w1 out heq
          injection heq with heq
          injection heq with h1 h2
          subst h1 h2
          exact ⟨hbase, rfl, _, rfl⟩
        · intro w1 heq; cases heq
    · rw [pore_loop_other L batch pore_type fuel w str size c h, log_other]
      constructor
      · intro w1 out heq; cases heq
      · intro w1 heq
        injection heq with heq
        subst heq
        exact ⟨⟨rfl, rfl, rfl, rfl⟩, rfl⟩

theorem end_reason_loop_frame {σ : Type} (L : Pod5Lib σ) (batch : Nat) (end_reason : Int) :
    ∀ (fuel : Nat) (w : World σ) (str size : Nat) (value : Option Nat),
      (∀ w1 out, pod5_get_end_reason_loop L batch end_reason fuel w str size value =
          Outcome.returned (w1, out) → Untouched w w1) ∧
      (∀ w1, pod5_get_end_reason_loop L batch end_reason fuel w str size value ≠
          Outcome.threw w1) := by
  intro fuel
  induction fuel with
  | zero =>
    intro w str size value
    constructor
    · intro w1 out h; simp [pod5_get_end_reason_loop] at h
    · intro w1 h; simp [pod5_get_end_reason_loop] at h
  | succ fuel ih =>
    intro w str size value
    rcases error_cases (L.pod5_get_end_reason w.lib batch end_reason size).1.error with
      h | h | ⟨c, h⟩
    · rw [end_reason_loop_ok L batch end_reason fuel w str size value h]
      constructor
      · intro w1 out heq
        injection heq with heq
        injection heq with h1 h2
        subst h1
        exact ⟨rfl, rfl, rfl, rfl⟩
      · intro w1 heq; cases heq
    · rw [end_reason_loop_short L batch end_reason fuel w str size value h]
      have hbase : Untouched w
          (after_grow (after_end_reason_lookup L batch end_reason w str size) str
            (((L.pod5_get_end_reason w.lib batch end_reason size).1.size <<< 1) %
              SIZE_T_RANGE)) :=
        ⟨rfl, rfl, rfl, rfl⟩
      split
      · obtain ⟨ih1, ih2⟩ := ih
          (after_grow (after_end_reason_lookup L batch end_reason w str size) str
            (((L.pod5_get_end_reason w.lib batch end_reason size).1.size <<< 1) %
              SIZE_T_RANGE))
          (after_end_reason_lookup L batch end_reason w str size).heap.length
          (((L.pod5_get_end_reason w.lib batch end_reason size).1.size <<< 1) % SIZE_T_RANGE)
          (written_value (L.pod5_get_end_reason w.lib batch end_reason size).1.value value)
        constructor
        · intro w1 out heq
          exact untouched_trans hbase (ih1 w1 out heq)
        · exact ih2
      · constructor
        · intro w1 out heq
          injection heq with heq
          injection heq with h1 h2
          subst h1
          exact hbase
        · intro w1 heq; cases heq
    · rw [end_reason_loop_other L batch end_reason fuel w str size value c h, log_other]
      constructor
      · intro w1 out heq
        injection heq with heq
        injection heq with h1 h2
        subst h1
        exact ⟨rfl, rfl, rfl, rfl⟩
      · intro w1 heq; cases heq

theorem pore_wrapped_frame {σ : Type} (L : Pod5Lib σ) (fuel batch : Nat) (pore_type : Int)
    (w : World σ) :
    (∀ w1 out, pod5_get_pore_wrapped L fuel batch pore_type w = Outcome.returned (w1, out) →
      Untouched w w1 ∧ w1.cerr = w.cerr ∧ ∃ p, out.str = some p) ∧
    (∀ w1, pod5_get_pore_wrapped L fuel batch pore_type w = Outcome.threw w1 →
      Untouched w w1 ∧ w1.cerr = w.cerr ++ [L.pod5_get_error_string w1.lib]) := by
  unfold pod5_get_pore_wrapped
  obtain ⟨h1, h2⟩ := pore_loop_frame L batch pore_type fuel
    { w with heap := (malloc (16 <<< 4) w.heap).2 } (malloc (16 <<< 4) w.heap).1 (16 <<< 4)
  exact ⟨fun w1 out h => h1 w1 out h, fun w1 h => h2 w1 h⟩

theorem end_reason_wrapped_frame {σ : Type} (L : Pod5Lib σ) (fuel batch : Nat)
    (end_reason : Int) (value : Option Nat) (w : World σ) :
    (∀ w1 out, pod5_get_end_reason_wrapped L fuel batch end_reason value w =
        Outcome.returned (w1, out) → Untouched w w1) ∧
    (∀ w1, pod5_get_end_reason_wrapped L fuel batch end_reason value w ≠ Outcome.threw w1) := by
  unfold pod5_get_end_reason_wrapped
  obtain ⟨h1, h2⟩ := end_reason_loop_frame L batch end_reason fuel
    { w with heap := (malloc (16 <<< 4) w.heap).2 } (malloc (16 <<< 4) w.heap).1 (16 <<< 4) value
  exact ⟨fun w1 out h => h1 w1 out h, h2⟩

/-! ## The interner -/

theorem mem_keys_of_map_find {m : List (String × Int)} {key : String} {v : Int}
    (h : map_find m key = some v) : key ∈ m.map Prod.fst := by
  by_contra hc
  rw [(map_find_none_iff m key).mpr hc] at h
  cases h

theorem intern_spec {σ : Type} (L : Pod5Lib σ) (writer i : Nat) (ptr : Option Nat)
    (w : World σ) (t : TransformState) :
    ∃ code more,
      (intern_pore_type L writer i ptr w t).2 =
        { t with row_data :=
            { t.row_data with pore_type := t.row_data.pore_type.set i (some code) } } ∧
      (intern_pore_type L writer i ptr w t).1.resolved = w.resolved ++ [interned_key ptr w] ∧
      (intern_pore_type L writer i ptr w t).1.appended = w.appended ∧
      (intern_pore_type L writer i ptr w t).1.pore_type_cache = w.pore_type_cache ++ more ∧
      map_find (intern_pore_type L writer i ptr w t).1.pore_type_cache (interned_key ptr w) =
        some code ∧
      (Coherent w → Coherent (intern_pore_type L writer i ptr w t).1) := by
  have hkey : (match ptr with
      | some p => load p w.heap
      | none => "") = interned_key ptr w := rfl
  cases hfind : map_find w.pore_type_cache (interned_key ptr w) with
  | some code =>
    refine ⟨code, [], ?_, ?_, ?_, ?_, ?_, ?_⟩
    · simp only [intern_pore_type, hkey, hfind]
    · simp only [intern_pore_type, hkey, hfind]
    · simp only [intern_pore_type, hkey, hfind]
    · simp only [intern_pore_type, hkey, hfind, List.append_nil]
    · simp only [intern_pore_type, hkey, hfind]
    · intro hco
      obtain ⟨hc1, hc2⟩ := hco
      have hmem : interned_key ptr w ∈ w.resolved := by
        rw [← mem_distinct_in_order, ← hc2, ← hc1]
        exact mem_keys_of_map_find hfind
      simp only [intern_pore_type, hkey, hfind, Coherent]
      refine ⟨hc1, ?_⟩
      rw [distinct_in_order_snoc, if_pos hmem]
      exact hc2
  | none =>
    have hins : ∀ v, map_insert w.pore_type_cache (interned_key ptr w) v =
        w.pore_type_cache ++ [(interned_key ptr w, v)] :=
      fun v => map_insert_of_none _ _ v hfind
    have hlog : ∀ e (w0 : World σ), (LOG_PROGRAM_ERROR L e w0).pore_type_cache =
        w0.pore_type_cache ∧ (LOG_PROGRAM_ERROR L e w0).registered = w0.registered ∧
        (LOG_PROGRAM_ERROR L e w0).resolved = w0.resolved ∧
        (LOG_PROGRAM_ERROR L e w0).appended = w0.appended := fun e w0 => untouched_log L e w0
    refine ⟨(L.pod5_add_pore w.lib writer (interned_key ptr w)).1.2,
      [(interned_key ptr w, (L.pod5_add_pore w.lib writer (interned_key ptr w)).1.2)],
      ?_, ?_, ?_, ?_, ?_, ?_⟩
    · simp only [intern_pore_type, hkey, hfind]
    · simp only [intern_pore_type, hkey, hfind, (hlog _ _).2.2.1]
    · simp only [intern_pore_type, hkey, hfind, (hlog _ _).2.2.2]
    · simp only [intern_pore_type, hkey, hfind, (hlog _ _).1, hins]
    · simp only [intern_pore_type, hkey, hfind, (hlog _ _).1, hins]
      exact map_find_append_new _ _ _ hfind
    · intro hco
      obtain ⟨hc1, hc2⟩ := hco
      have hmem : interned_key ptr w ∉ w.resolved := by
        rw [← mem_distinct_in_order, ← hc2, ← hc1]
        exact (map_find_none_iff _ _).mp hfind
      simp only [intern_pore_type, hkey, hfind, Coherent, (hlog _ _).1, (hlog _ _).2.1,
        (hlog _ _).2.2.1, hins]
      refine ⟨by rw [hc1], ?_⟩
      rw [distinct_in_order_snoc, if_neg hmem, List.map_append, hc2]
      rfl

/-! ## One row of the transformer -/

theorem set_slot {α : Type} (A B : List α) (b v : α) (i : Nat) (hi : i = A.length) :
    (A ++ b :: B).set i v = A ++ v :: B := by
  subst hi
  induction A with
  | nil => rfl
  | cons a A ih => simp [ih]

theorem set_slot_map {α β : Type} (done : List β) (f : β → α) (B : List α) (b v : α) :
    (done.map f ++ b :: B).set done.length v = done.map f ++ v :: B :=
  set_slot _ _ _ _ _ (by simp)

theorem row_columns (done : List ReadBatchRowInfo_t) (pore : List (Option Int))
    (er : List (Option Nat)) (k : Nat) (row : ReadBatchRowInfo_t) (code : Option Int)
    (v : Option Nat) (hp : done.length = pore.length) (he : done.length = er.length) :
    let t0 : TransformState :=
      { row_data := partial_columns done pore er (k + 1), read_id := done.length,
        end_reason := done.length }
    let t1 := copy_leading_fields done.length row t0
    let t2 : TransformState :=
      { t1 with row_data :=
          { t1.row_data with pore_type := t1.row_data.pore_type.set done.length code } }
    let t3 := copy_calibration_fields done.length row t2
    let t4 : TransformState :=
      { t3 with
        row_data := { t3.row_data with end_reason := t3.row_data.end_reason.set t3.end_reason v }
        end_reason := t3.end_reason + 1 }
    copy_trailing_fields done.length row t4 =
      { row_data := partial_columns (done ++ [row]) (pore ++ [code]) (er ++ [v]) k
        read_id := done.length + 1, end_reason := done.length + 1 } := by
  simp only [copy_leading_fields, copy_calibration_fields, copy_trailing_fields,
    partial_columns, List.replicate_succ, set_slot_map, set_slot pore _ _ _ _ hp,
    set_slot er _ _ _ _ he, List.map_append, List.map_cons, List.map_nil, List.append_assoc,
    List.singleton_append]

theorem coherent_of_untouched {σ : Type} {a b : World σ} (h : Untouched a b)
    (hc : Coherent a) : Coherent b := by
  obtain ⟨h1, h2, h3, _⟩ := h
  unfold Coherent
  rw [h1, h2, h3]
  exact hc

theorem transform_row_returned {σ : Type} (L : Pod5Lib σ) (fuel batch writer : Nat)
    (done : List ReadBatchRowInfo_t) (pore : List (Option Int)) (er : List (Option Nat))
    (k : Nat) (row : ReadBatchRowInfo_t) (w w1 : World σ) (t1 : TransformState)
    (hp : done.length = pore.length) (he : done.length = er.length)
    (h : transform_row L fuel batch writer done.length row w
        { row_data := partial_columns done pore er (k + 1), read_id := done.length,
          end_reason := done.length } = Outcome.returned (w1, t1)) :
    ∃ key code v more,
      t1 = { row_data := partial_columns (done ++ [row]) (pore ++ [some code]) (er ++ [v]) k
             read_id := done.length + 1, end_reason := done.length + 1 } ∧
      w1.resolved = w.resolved ++ [key] ∧ w1.appended = w.appended ∧
      w1.pore_type_cache = w.pore_type_cache ++ more ∧
      map_find w1.pore_type_cache key = some code ∧
      (Coherent w → Coherent w1) := by
  unfold transform_row at h
  simp only [] at h
  split at h
  · cases h
  · cases h
  · rename_i wa pout hpore
    split at h
    · cases h
    · cases h
    · rename_i w2 eo hend
      injection h with h
      injection h with hw ht
      obtain ⟨hua, _, _⟩ := (pore_wrapped_frame L fuel batch row.pore_type w).1 wa pout hpore
      obtain ⟨code, more, hi1, hi2, hi3, hi4, hi5, hi6⟩ := intern_spec L writer done.length
        pout.str wa (copy_leading_fields done.length row
          { row_data := partial_columns done pore er (k + 1), read_id := done.length,
            end_reason := done.length })
      have hu2 := (end_reason_wrapped_frame L fuel batch row.end_reason _ _).1 w2 eo hend
      rw [hi1] at ht
      refine ⟨interned_key pout.str wa, code, eo.value, more, ?_, ?_, ?_, ?_, ?_, ?_⟩
      · rw [← ht]
        exact row_columns done pore er k row (some code) eo.value hp he
      · rw [← hw]
        show w2.resolved = _
        rw [hu2.2.2.1, hi2, hua.2.2.1]
      · rw [← hw]
        show w2.appended = _
        rw [hu2.2.2.2, hi3, hua.2.2.2]
      · rw [← hw]
        show w2.pore_type_cache = _
        rw [hu2.1, hi4, hua.1]
      · rw [← hw]
        show map_find w2.pore_type_cache _ = _
        rw [hu2.1]
        exact hi5
      · intro hco
        rw [← hw]
        have h2 : Coherent w2 := coherent_of_untouched hu2 (hi6 (coherent_of_untouched hua hco))
        exact h2

/-! ## The transformer loop -/

theorem transform_rows_returned {σ : Type} (L : Pod5Lib σ) (fuel batch writer : Nat) :
    ∀ (rest done : List ReadBatchRowInfo_t) (pore : List (Option Int))
      (er : List (Option Nat)) (k : Nat) (w w1 : World σ) (t1 : TransformState),
      done.length = pore.length → done.length = er.length →
      transform_rows L fuel batch writer done.length rest w
        { row_data := partial_columns done pore er (rest.length + k), read_id := done.length,
          end_reason := done.length } = Outcome.returned (w1, t1) →
      ∃ (keys : List String) (codes : List Int) (ers : List (Option Nat))
        (more : List (String × Int)),
        keys.length = rest.length ∧ codes.length = rest.length ∧ ers.length = rest.length ∧
        t1 = { row_data := partial_columns (done ++ rest) (pore ++ codes.map some) (er ++ ers) k
               read_id := (done ++ rest).length, end_reason := (done ++ rest).length } ∧
        w1.resolved = w.resolved ++ keys ∧ w1.appended = w.appended ∧
        w1.pore_type_cache = w.pore_type_cache ++ more ∧
        keys.map (map_find w1.pore_type_cache) = codes.map some ∧
        (Coherent w → Coherent w1) := by
  intro rest
  induction rest with
  | nil =>
    intro done pore er k w w1 t1 hp he h
    simp only [transform_rows] at h
    injection h with h
    injection h with hw ht
    subst hw
    refine ⟨[], [], [], [], rfl, rfl, rfl, ?_, ?_, rfl, ?_, rfl, fun hc => hc⟩
    · rw [← ht]
      simp
    · simp
    · simp
  | cons row rest ih =>
    intro done pore er k w w1 t1 hp he h
    simp only [transform_rows] at h
    split at h
    · cases h
    · cases h
    · rename_i wa ta hrow
      have hk : (row :: rest).length + k = (rest.length + k) + 1 := by
        simp only [List.length_cons]
        omega
      rw [hk] at hrow
      obtain ⟨key, code, v, more, hta, hres, happ, hcache, hfind, hco⟩ :=
        transform_row_returned L fuel batch writer done pore er (rest.length + k) row w wa ta
          hp he hrow
      have hlen : (done ++ [row]).length = done.length + 1 := by simp
      rw [hta, ← hlen] at h
      obtain ⟨keys, codes, ers, more1, hk1, hc, hel, ht1, hres1, happ1, hcache1, hfind1, hco1⟩ :=
        ih (done ++ [row]) (pore ++ [some code]) (er ++ [v]) k wa w1 t1
          (by simp [hp]) (by simp [he]) h
      refine ⟨key :: keys, code :: codes, v :: ers, more ++ more1, by simp [hk1], by simp [hc],
        by simp [hel], ?_, ?_, ?_, ?_, ?_, fun hcoh => hco1 (hco hcoh)⟩
      · rw [ht1]
        simp
      · rw [hres1, hres]
        simp
      · rw [happ1, happ]
      · rw [hcache1, hcache]
        simp
      · simp only [List.map_cons, hfind1]
        congr 1
        rw [hcache1]
        exact map_find_append_of_some _ _ _ _ hfind

theorem alloc_columns_eq (n : Nat) : alloc_columns n = partial_columns [] [] [] n := by
  simp [alloc_columns, partial_columns]

theorem transform_returned {σ : Type} (L : Pod5Lib σ) (fuel : Nat)
    (in_data : List ReadBatchRowInfo_t) (batch writer : Nat) (w w1 : World σ)
    (rd : ReadBatchRowInfoArray_t)
    (h : transform_read_data_batch_array L fuel in_data batch writer w =
      Outcome.returned (w1, rd)) :
    ∃ (keys : List String) (codes : List Int) (ers : List (Option Nat))
      (more : List (String × Int)),
      keys.length = in_data.length ∧ codes.length = in_data.length ∧
      ers.length = in_data.length ∧
      rd = partial_columns in_data (codes.map some) ers 0 ∧
      w1.resolved = w.resolved ++ keys ∧ w1.appended = w.appended ∧
      w1.pore_type_cache = w.pore_type_cache ++ more ∧
      keys.map (map_find w1.pore_type_cache) = codes.map some ∧
      (Coherent w → Coherent w1) := by
  unfold transform_read_data_batch_array at h
  simp only [] at h
  split at h
  · cases h
  · cases h
  · rename_i wa ta hrows
    injection h with h
    injection h with hw ht
    subst hw
    rw [alloc_columns_eq] at hrows
    obtain ⟨keys, codes, ers, more, hk, hc, hel, ht1, hres, happ, hcache, hfind, hco⟩ :=
      transform_rows_returned L fuel batch writer in_data [] [] [] 0 w wa ta rfl rfl hrows
    refine ⟨keys, codes, ers, more, hk, hc, hel, ?_, hres, happ, hcache, hfind, hco⟩
    rw [← ht, ht1]
    simp

theorem returned_of_result {α ε : Type} (o : Outcome α ε) (h : o.result.isSome = true) :
    o = Outcome.returned (o.result.get h) := by
  cases o with
  | returned a => rfl
  | threw e => cases h
  | out_of_fuel => cases h

/-! ## Verbatim copy of the fixed-width fields -/

/-- C7: when `transform_read_data_batch_array` returns for an input array `in_data` of `n`
rows, the two dictionary-derived columns `pore_type` and `end_reason` have `n` slots, and
each of the 17 fixed-width columns is exactly the list of that field over the input rows in
order (so it has `n` entries and entry `i` is the field of row `i`, `run_info_id` being the
row's `run_info`; nothing is written to another column or another row's slot). -/
theorem verbatim_row_to_column_copy {σ : Type} (L : Pod5Lib σ) (fuel : Nat)
    (in_data : List ReadBatchRowInfo_t) (batch writer : Nat) (w w1 : World σ)
    (rd : ReadBatchRowInfoArray_t)
    (h : transform_read_data_batch_array L fuel in_data batch writer w =
      Outcome.returned (w1, rd)) :
    rd.pore_type.length = in_data.length ∧
    rd.end_reason.length = in_data.length ∧
    rd.read_id = in_data.map (fun r => some r.read_id) ∧
    rd.read_number = in_data.map (fun r => some r.read_number) ∧
    rd.start_sample = in_data.map (fun r => some r.start_sample) ∧
    rd.median_before = in_data.map (fun r => some r.median_before) ∧
    rd.channel = in_data.map (fun r => some r.channel) ∧
    rd.well = in_data.map (fun r => some r.well) ∧
    rd.calibration_offset = in_data.map (fun r => some r.calibration_offset) ∧
    rd.calibration_scale = in_data.map (fun r => some r.calibration_scale) ∧
    rd.end_reason_forced = in_data.map (fun r => some r.end_reason_forced) ∧
    rd.run_info_id = in_data.map (fun r => some r.run_info) ∧
    rd.num_minknow_events = in_data.map (fun r => some r.num_minknow_events) ∧
    rd.tracked_scaling_scale = in_data.map (fun r => some r.tracked_scaling_scale) ∧
    rd.tracked_scaling_shift = in_data.map (fun r => some r.tracked_scaling_shift) ∧
    rd.predicted_scaling_scale = in_data.map (fun r => some r.predicted_scaling_scale) ∧
    rd.predicted_scaling_shift = in_data.map (fun r => some r.predicted_scaling_shift) ∧
    rd.num_reads_since_mux_change =
      in_data.map (fun r => some r.num_reads_since_mux_change) ∧
    rd.time_since_mux_change = in_data.map (fun r => some r.time_since_mux_change) := by
  obtain ⟨keys, codes, ers, more, _, hc, hel, hrd, _⟩ :=
    transform_returned L fuel in_data batch writer w w1 rd h
  subst hrd
  simp [partial_columns, hc, hel]

theorem verbatim_row_to_column_copy_witness :
    ∃ p, transform_read_data_batch_array two_batches.lib 9 (two_batches.rows 0) 0 0
        (World.init 0) = Outcome.returned p ∧
      p.2.read_number = [some 1, some 2, some 3] := by
  have hsome : (transform_read_data_batch_array two_batches.lib 9 (two_batches.rows 0) 0 0
      (World.init 0)).result.isSome = true := by decide
  have hrun := returned_of_result _ hsome
  exact ⟨_, hrun, (verbatim_row_to_column_copy _ _ _ _ _ _ _ _ hrun).2.2.2.1⟩

/-! ## The batch loop of `main` -/

theorem untouched_set_lib {σ : Type} (w : World σ) (s : σ) :
    Untouched w { w with lib := s } :=
  ⟨rfl, rfl, rfl, rfl⟩

theorem main_open_batch_untouched {σ : Type} (L : Pod5Lib σ) (reader idx : Nat)
    (w : World σ) : Untouched w (main_open_batch L reader idx w).world := by
  unfold main_open_batch
  exact untouched_trans (untouched_trans (untouched_set_lib w _) (untouched_log L _ _))
    (untouched_trans (untouched_set_lib _ _) (untouched_log L _ _))

theorem main_load_rows_untouched {σ : Type} (L : Pod5Lib σ) (reader batch : Nat) :
    ∀ (remaining row : Nat) (w : World σ) (a : LoadedRows),
      Untouched w (main_load_rows L reader batch remaining row w a).1 := by
  intro remaining
  induction remaining with
  | zero => intro row w a; exact untouched_refl w
  | succ remaining ih =>
    intro row w a
    simp only [main_load_rows]
    refine untouched_trans ?_ (ih _ _ _)
    exact untouched_trans
      (untouched_trans (untouched_set_lib w _) (untouched_log L _ _))
      (untouched_trans
        (untouched_trans (untouched_set_lib _ _) (untouched_log L _ _))
        (untouched_trans (untouched_set_lib _ _) (untouched_log L _ _)))

theorem main_loaded_untouched {σ : Type} (L : Pod5Lib σ) (reader idx : Nat) (w : World σ) :
    Untouched w (main_loaded L reader idx w).1 := by
  unfold main_loaded
  exact untouched_trans (main_open_batch_untouched L reader idx w)
    (main_load_rows_untouched L reader _ _ _ _ _)

theorem main_append_batch_spec {σ : Type} (L : Pod5Lib σ) (writer batch : Nat)
    (call : AppendCall) (w : World σ) :
    (main_append_batch L writer batch call w).appended = w.appended ++ [call] ∧
    (main_append_batch L writer batch call w).pore_type_cache = w.pore_type_cache ∧
    (main_append_batch L writer batch call w).registered = w.registered ∧
    (main_append_batch L writer batch call w).resolved = w.resolved := by
  have hu : Untouched { w with appended := w.appended ++ [call] }
      (main_append_batch L writer batch call w) := by
    unfold main_append_batch
    refine untouched_trans ?_ (untouched_log L _ _)
    refine untouched_trans ?_ (untouched_set_lib _ _)
    exact untouched_trans ⟨rfl, rfl, rfl, rfl⟩ (untouched_log L _ _)
  exact ⟨hu.2.2.2, hu.1, hu.2.1, hu.2.2.1⟩

theorem main_copy_batch_returned {σ : Type} (L : Pod5Lib σ) (fuel reader writer idx : Nat)
    (w w1 : World σ) (h : main_copy_batch L fuel reader writer idx w = Outcome.returned w1) :
    ∃ (rd : ReadBatchRowInfoArray_t) (keys : List String) (codes : List Int)
      (more : List (String × Int)),
      w1.appended = w.appended ++
        [{ row_count := (main_open_batch L reader idx w).batch_row_count
           row_data := rd
           signal := (main_loaded L reader idx w).2.signal
           signal_length := main_signal_length (main_loaded L reader idx w).2.sample_count }] ∧
      rd.pore_type = codes.map some ∧
      w1.resolved = w.resolved ++ keys ∧
      w1.pore_type_cache = w.pore_type_cache ++ more ∧
      keys.map (map_find w1.pore_type_cache) = codes.map some ∧
      (Coherent w → Coherent w1) := by
  unfold main_copy_batch at h
  simp only [] at h
  split at h
  · cases h
  · cases h
  · rename_i w3 rd htr
    injection h with h
    obtain ⟨keys, codes, ers, more, _, _, _, hrd, hres, happ, hcache, hfind, hco⟩ :=
      transform_returned L fuel _ _ writer _ w3 rd htr
    have hl := main_loaded_untouched L reader idx w
    obtain ⟨hu_a, hu_c, hu_r, hu_s⟩ := main_append_batch_spec L writer
      (main_open_batch L reader idx w).current_batch
      { row_count := (main_open_batch L reader idx w).batch_row_count
        row_data := rd
        signal := (main_loaded L reader idx w).2.signal
        signal_length := main_signal_length (main_loaded L reader idx w).2.sample_count } w3
    rw [h] at hu_a hu_c hu_r hu_s
    refine ⟨rd, keys, codes, more, ?_, ?_, ?_, ?_, ?_, ?_⟩
    · rw [hu_a, happ, hl.2.2.2]
    · rw [hrd]
      simp [partial_columns]
    · rw [hu_s, hres, hl.2.2.1]
    · rw [hu_c, hcache, hl.1]
    · rw [hu_c]
      exact hfind
    · intro hcoh
      have h3 : Coherent w3 := hco (coherent_of_untouched hl hcoh)
      obtain ⟨h31, h32⟩ := h3
      unfold Coherent
      rw [hu_c, hu_r, hu_s]
      exact ⟨h31, h32⟩

theorem coherent_find {σ : Type} {w : World σ} (hc : Coherent w) {s : String}
    (hs : s ∈ w.resolved) : ∃ c, map_find w.pore_type_cache s = some c := by
  obtain ⟨h1, h2⟩ := hc
  have hmem : s ∈ w.pore_type_cache.map Prod.fst := by
    rw [h1, h2, mem_distinct_in_order]
    exact hs
  cases hf : map_find w.pore_type_cache s with
  | none => exact absurd hmem ((map_find_none_iff _ _).mp hf)
  | some c => exact ⟨c, rfl⟩

theorem interned_init {σ : Type} (s : σ) : Interned (World.init s) := by
  refine ⟨⟨rfl, rfl⟩, ?_⟩
  simp [appended_pore_types, World.init]

theorem interned_step {σ : Type} (L : Pod5Lib σ) (fuel reader writer idx : Nat)
    (w w1 : World σ) (hi : Interned w)
    (h : main_copy_batch L fuel reader writer idx w = Outcome.returned w1) : Interned w1 := by
  obtain ⟨hco, hout⟩ := hi
  obtain ⟨rd, keys, codes, more, happ, hrd, hres, hcache, hfind, hco1⟩ :=
    main_copy_batch_returned L fuel reader writer idx w w1 h
  refine ⟨hco1 hco, ?_⟩
  have hold : w.resolved.map (map_find w1.pore_type_cache) =
      w.resolved.map (map_find w.pore_type_cache) := by
    apply List.map_congr_left
    intro s hs
    obtain ⟨c, hc⟩ := coherent_find hco hs
    rw [hc, hcache]
    exact map_find_append_of_some _ _ _ _ hc
  unfold appended_pore_types at hout ⊢
  rw [happ, hres, List.map_append, List.flatten_append, hout, List.map_append, hold, hfind]
  simp [hrd]

theorem interned_loop {σ : Type} (L : Pod5Lib σ) (fuel reader writer : Nat) :
    ∀ (remaining idx : Nat) (w w1 : World σ), Interned w →
      main_copy_batches L fuel reader writer remaining idx w = Outcome.returned w1 →
      Interned w1 := by
  intro remaining
  induction remaining with
  | zero =>
    intro idx w w1 hi h
    simp only [main_copy_batches] at h
    injection h with h
    subst h
    exact hi
  | succ remaining ih =>
    intro idx w w1 hi h
    simp only [main_copy_batches] at h
    split at h
    · cases h
    · cases h
    · rename_i wa hstep
      exact ih (idx + 1) wa w1 (interned_step L fuel reader writer idx w wa hi hstep) h

/-! ## Code stability and first-seen deduplication -/

/-- C1: run the batch loop of `main` from an empty `pore_type_cache`, for any library (in
particular any behaviour of `pod5_add_pore`, failing calls and arbitrary codes included).
When the loop returns, the `pore_type` columns handed to the destination hold one written
code per row, and two rows, of the same or of different batches, whose resolved pore-type
strings are equal hold the same code. -/
theorem code_stability {σ : Type} (L : Pod5Lib σ) (fuel reader writer batch_count : Nat)
    (s0 : σ) (w : World σ)
    (hrun : main_copy_batches L fuel reader writer batch_count 0 (World.init s0) =
      Outcome.returned w) :
    (appended_pore_types w).length = w.resolved.length ∧
    ∀ i j, i < w.resolved.length → j < w.resolved.length →
      w.resolved[i]? = w.resolved[j]? →
      (appended_pore_types w)[i]? = (appended_pore_types w)[j]? ∧
      ∃ c, (appended_pore_types w)[i]? = some (some c) := by
  obtain ⟨hco, hout⟩ := interned_loop L fuel reader writer batch_count 0 _ w
    (interned_init s0) hrun
  rw [hout]
  refine ⟨by simp, ?_⟩
  intro i j hi hj hij
  rw [List.getElem?_map, List.getElem?_map, hij]
  refine ⟨rfl, ?_⟩
  rw [← hij, List.getElem?_eq_getElem hi]
  obtain ⟨c, hc⟩ := coherent_find hco (List.getElem_mem hi)
  exact ⟨c, by simp [hc]⟩

theorem two_batches_returns :
    (main_copy_batches two_batches.lib 9 0 0 2 0 (World.init 0)).result.isSome = true := by
  decide

theorem code_stability_witness :
    ∃ w, main_copy_batches two_batches.lib 9 0 0 2 0 (World.init 0) = Outcome.returned w ∧
      w.resolved = ["pore_A", "pore_B", "pore_A", "pore_B", "pore_C"] ∧
      (appended_pore_types w)[1]? = (appended_pore_types w)[3]? ∧
      (appended_pore_types w)[1]? = some (some 1) := by
  have hrun := returned_of_result _ two_batches_returns
  refine ⟨_, hrun, by decide, ?_, by decide⟩
  exact ((code_stability _ _ _ _ _ _ _ hrun).2 1 3 (by decide) (by decide) (by decide)).1

theorem map_find_eq_indexOf (m : List (String × Int)) (key : String) :
    map_find m key = (m[List.indexOf key (m.map Prod.fst)]?).map Prod.snd := by
  induction m with
  | nil => simp [map_find]
  | cons kv rest ih =>
    obtain ⟨k, v⟩ := kv
    by_cases hk : k = key
    · subst hk
      simp [map_find]
    · have hk2 : ¬ key = k := fun h => hk h.symm
      simp only [map_find, if_neg hk, List.map_cons]
      rw [List.indexOf_cons_ne _ hk, ih]
      simp

/-- C2: run the batch loop of `main` from an empty `pore_type_cache`.  When the loop
returns, the strings passed to `pod5_add_pore`, in call order, are exactly the distinct
resolved pore-type strings in order of first appearance; so the number of registrations is
the number of distinct strings among the rows' resolved strings; and when the destination
assigned the codes 0, 1, 2, ... in registration order, every row's output code is the
first-appearance rank of its string. -/
theorem first_seen_deduplication {σ : Type} (L : Pod5Lib σ)
    (fuel reader writer batch_count : Nat) (s0 : σ) (w : World σ)
    (hrun : main_copy_batches L fuel reader writer batch_count 0 (World.init s0) =
      Outcome.returned w) :
    w.registered.map Prod.fst = distinct_in_order w.resolved ∧
    (w.registered.map Prod.fst).Nodup ∧
    w.registered.length = w.resolved.toFinset.card ∧
    (w.registered.map Prod.snd = (List.range w.registered.length).map Int.ofNat →
      appended_pore_types w =
        w.resolved.map
          (fun s => some (Int.ofNat (List.indexOf s (distinct_in_order w.resolved))))) := by
  obtain ⟨hco, hout⟩ := interned_loop L fuel reader writer batch_count 0 _ w
    (interned_init s0) hrun
  obtain ⟨hc1, hc2⟩ := hco
  refine ⟨hc2, ?_, ?_, ?_⟩
  · rw [hc2]
    exact nodup_distinct_in_order _
  · rw [← length_distinct_in_order, ← hc2, List.length_map]
  · intro hcodes
    rw [hout]
    apply List.map_congr_left
    intro s hs
    rw [map_find_eq_indexOf, hc1, hc2]
    have hidx : List.indexOf s (distinct_in_order w.resolved) < w.registered.length := by
      have hlen : w.registered.length = (distinct_in_order w.resolved).length := by
        rw [← hc2, List.length_map]
      rw [hlen]
      exact List.indexOf_lt_length.mpr ((mem_distinct_in_order _ _).mpr hs)
    rw [← List.getElem?_map, hcodes, List.getElem?_map, List.getElem?_range hidx]
    rfl

theorem first_seen_deduplication_witness :
    ∃ w, main_copy_batches two_batches.lib 9 0 0 2 0 (World.init 0) = Outcome.returned w ∧
      w.registered = [("pore_A", 0), ("pore_B", 1), ("pore_C", 2)] ∧
      w.appended.map (fun c => c.row_data.pore_type) =
        [[some 0, some 1, some 0], [some 1, some 2]] ∧
      w.registered.length = w.resolved.toFinset.card ∧
      appended_pore_types w =
        w.resolved.map
          (fun s => some (Int.ofNat (List.indexOf s (distinct_in_order w.resolved)))) := by
  have hrun := returned_of_result _ two_batches_returns
  have hthm := first_seen_deduplication _ _ _ _ _ _ _ hrun
  exact ⟨_, hrun, by decide, by decide, hthm.2.2.1, hthm.2.2.2 (by decide)⟩

/-! ## Bounded retries and growth by doubling: the resolvers as called -/

theorem doubling_sizes_from_zero (m : Nat) :
    doubling_sizes 0 m = (List.range m).map (fun k => 256 * 2 ^ k) := by
  simp [doubling_sizes]

theorem pore_loop_fuel {σ : Type} (L : Pod5Lib σ) (batch : Nat) (pore_type : Int) :
    ∀ (fuel : Nat) (w : World σ) (str size : Nat),
      pod5_get_pore_loop L batch pore_type fuel w str size ≠ Outcome.out_of_fuel →
      ∀ extra, pod5_get_pore_loop L batch pore_type (fuel + extra) w str size =
        pod5_get_pore_loop L batch pore_type fuel w str size := by
  intro fuel
  induction fuel with
  | zero => intro w str size h; exact absurd rfl h
  | succ fuel ih =>
    intro w str size h extra
    have hfe : fuel + 1 + extra = (fuel + extra) + 1 := by omega
    rw [hfe]
    rcases error_cases (L.pod5_get_pore_type w.lib batch pore_type size).1.error with
      he | he | ⟨c, he⟩
    · rw [pore_loop_ok L batch pore_type _ w str size he,
        pore_loop_ok L batch pore_type _ w str size he]
    · rw [pore_loop_short L batch pore_type _ w str size he] at h ⊢
      rw [pore_loop_short L batch pore_type fuel w str size he]
      split
      · rename_i hc
        rw [if_pos hc] at h
        exact ih _ _ _ h extra
      · rfl
    · rw [pore_loop_other L batch pore_type _ w str size c he,
        pore_loop_other L batch pore_type _ w str size c he]

theorem end_reason_loop_fuel {σ : Type} (L : Pod5Lib σ) (batch : Nat) (end_reason : Int) :
    ∀ (fuel : Nat) (w : World σ) (str size : Nat) (value : Option Nat),
      pod5_get_end_reason_loop L batch end_reason fuel w str size value ≠
        Outcome.out_of_fuel →
      ∀ extra, pod5_get_end_reason_loop L batch end_reason (fuel + extra) w str size value =
        pod5_get_end_reason_loop L batch end_reason fuel w str size value := by
  intro fuel
  induction fuel with
  | zero => intro w str size value h; exact absurd rfl h
  | succ fuel ih =>
    intro w str size value h extra
    have hfe : fuel + 1 + extra = (fuel + extra) + 1 := by omega
    rw [hfe]
    rcases error_cases (L.pod5_get_end_reason w.lib batch end_reason size).1.error with
      he | he | ⟨c, he⟩
    · rw [end_reason_loop_ok L batch end_reason _ w str size value he,
        end_reason_loop_ok L batch end_reason _ w str size value he]
    · rw [end_reason_loop_short L batch end_reason _ w str size value he] at h ⊢
      rw [end_reason_loop_short L batch end_reason fuel w str size value he]
      split
      · rename_i hc
        rw [if_pos hc] at h
        exact ih _ _ _ _ h extra
      · rfl
    · rw [end_reason_loop_other L batch end_reason _ w str size value c he,
        end_reason_loop_other L batch end_reason _ w str size value c he]

theorem final_world_ne_out_of_fuel {σ α : Type} {o : Outcome (World σ × α) (World σ)}
    {w : World σ} (h : final_world o = some w) : o ≠ Outcome.out_of_fuel := by
  intro ho
  rw [ho] at h
  cases h

/-- C10: for every library whose string lookups leave the buffer-size argument unchanged
(whatever error codes they return, in whatever order), and every iteration bound of at
least 9, `pod5_get_pore_wrapped` and `pod5_get_end_reason_wrapped` end (by returning or
throwing, with the same result as under the bound 9) after `m` lookup calls, `1 ≤ m ≤ 9`;
the `k`-th call is made with buffer size `256 * 2 ^ (k - 1)`, and no call is made with a
size above 65,536. -/
theorem retry_loops_bounded {σ : Type} (L : Pod5Lib σ)
    (hpore : ∀ s b c n, (L.pod5_get_pore_type s b c n).1.size = n)
    (hend : ∀ s b c n, (L.pod5_get_end_reason s b c n).1.size = n)
    (fuel : Nat) (hfuel : 9 ≤ fuel) (batch : Nat) (code : Int) (value : Option Nat)
    (w : World σ) :
    (∃ m w1, 1 ≤ m ∧ m ≤ 9 ∧
      final_world (pod5_get_pore_wrapped L fuel batch code w) = some w1 ∧
      pod5_get_pore_wrapped L fuel batch code w = pod5_get_pore_wrapped L 9 batch code w ∧
      w1.lookups = w.lookups ++ (List.range m).map (fun k => 256 * 2 ^ k) ∧
      ∀ n ∈ (List.range m).map (fun k => 256 * 2 ^ k), n ≤ 65536) ∧
    (∃ m w1, 1 ≤ m ∧ m ≤ 9 ∧
      final_world (pod5_get_end_reason_wrapped L fuel batch code value w) = some w1 ∧
      pod5_get_end_reason_wrapped L fuel batch code value w =
        pod5_get_end_reason_wrapped L 9 batch code value w ∧
      w1.lookups = w.lookups ++ (List.range m).map (fun k => 256 * 2 ^ k) ∧
      ∀ n ∈ (List.range m).map (fun k => 256 * 2 ^ k), n ≤ 65536) := by
  obtain ⟨extra, rfl⟩ : ∃ extra, fuel = 9 + extra := ⟨fuel - 9, by omega⟩
  constructor
  · obtain ⟨m, w1, hm, hm9, hfin, hl⟩ := pore_loop_calls L hpore batch code 9 0
      { w with heap := (malloc (16 <<< 4) w.heap).2 } (malloc (16 <<< 4) w.heap).1
      (by omega) (by omega)
    have hfuel9 := pore_loop_fuel L batch code 9 _ _ _ (final_world_ne_out_of_fuel hfin) extra
    rw [← initial_size_eq] at hfin hfuel9
    refine ⟨m, w1, hm, by omega, ?_, hfuel9, ?_, ?_⟩
    · unfold pod5_get_pore_wrapped
      rw [hfuel9]
      exact hfin
    · rw [hl, doubling_sizes_from_zero]
    · rw [← doubling_sizes_from_zero]
      exact doubling_sizes_le 0 m (by omega)
  · obtain ⟨m, w1, hm, hm9, hfin, hl⟩ := end_reason_loop_calls L hend batch code 9 0
      { w with heap := (malloc (16 <<< 4) w.heap).2 } (malloc (16 <<< 4) w.heap).1 value
      (by omega) (by omega)
    have hfuel9 := end_reason_loop_fuel L batch code 9 _ _ _ _
      (final_world_ne_out_of_fuel hfin) extra
    rw [← initial_size_eq] at hfin hfuel9
    refine ⟨m, w1, hm, by omega, ?_, hfuel9, ?_, ?_⟩
    · unfold pod5_get_end_reason_wrapped
      rw [hfuel9]
      exact hfin
    · rw [hl, doubling_sizes_from_zero]
    · rw [← doubling_sizes_from_zero]
      exact doubling_sizes_le 0 m (by omega)

theorem fitting_lookup_size (text : String) (n : Nat) : (fitting_lookup text n).size = n := by
  unfold fitting_lookup
  split <;> rfl

theorem fitting_end_reason_size (text : String) (v n : Nat) :
    (fitting_end_reason text v n).size = n := by
  unfold fitting_end_reason
  split <;> rfl

theorem long_names_pore_size (s b : Nat) (c : Int) (n : Nat) :
    (long_names.lib.pod5_get_pore_type s b c n).1.size = n :=
  fitting_lookup_size long_pore_name n

theorem long_names_end_reason_size (s b : Nat) (c : Int) (n : Nat) :
    (long_names.lib.pod5_get_end_reason s b c n).1.size = n :=
  fitting_end_reason_size long_end_reason_name 3 n

theorem retry_loops_bounded_witness :
    (∀ s b c n, (long_names.lib.pod5_get_pore_type s b c n).1.size = n) ∧
    (∀ s b c n, (long_names.lib.pod5_get_end_reason s b c n).1.size = n) ∧
    (∃ m w1, 1 ≤ m ∧ m ≤ 9 ∧
      final_world (pod5_get_pore_wrapped long_names.lib 12 0 0 (World.init 0)) = some w1 ∧
      pod5_get_pore_wrapped long_names.lib 12 0 0 (World.init 0) =
        pod5_get_pore_wrapped long_names.lib 9 0 0 (World.init 0) ∧
      w1.lookups = (World.init 0).lookups ++ (List.range m).map (fun k => 256 * 2 ^ k) ∧
      ∀ n ∈ (List.range m).map (fun k => 256 * 2 ^ k), n ≤ 65536) :=
  ⟨long_names_pore_size, long_names_end_reason_size,
    (retry_loops_bounded long_names.lib long_names_pore_size long_names_end_reason_size
      12 (by decide) 0 0 none (World.init 0)).1⟩

/-- C3 (the code departs from the claim): with a lookup that answers "buffer too small" at
every size, `pod5_get_pore_wrapped` and `pod5_get_end_reason_wrapped` make 9 calls and then
return normally, handing the caller a live, non-null buffer of 131,072 bytes, exactly as on
success; `transform_read_data_batch_array` then reads that buffer as the resolved text,
registers it with the destination and writes the code it gets into the row. -/
theorem ceiling_reached_returns_normally :
    (pod5_get_pore_wrapped oversized.lib 9 0 0 (World.init 0)).result.map
        (fun r => (r.2, r.1.heap[9]?, r.1.lookups.length, r.1.cerr)) =
      some ({ str := some 9, size := 131072 },
        some { size := 131072, text := "junk", released := 0 }, 9, []) ∧
    (pod5_get_end_reason_wrapped oversized.lib 9 0 0 none (World.init 0)).result.map
        (fun r => (r.2.str, r.2.size, r.1.heap[9]?, r.1.cerr)) =
      some (some 9, 131072, some { size := 131072, text := "junk", released := 0 }, []) ∧
    (transform_read_data_batch_array oversized.lib 9 [zero_row] 0 0 (World.init 0)).result.map
        (fun r => (r.1.resolved, r.1.registered, r.2.pore_type)) =
      some (["junk"], [("junk", 0)], [some 0]) := by
  refine ⟨?_, ?_, ?_⟩
  · decide
  · decide
  · decide

/-- C6 (the code departs from the claim): when the end-reason lookup fails with an error
other than "buffer too small", `pod5_get_end_reason_wrapped` releases its buffer but leaves
the output pointer designating it, and the `DEBUG_FREE` of
`transform_read_data_batch_array` releases the same buffer a second time: after one row
the pore-type buffer has release count 1 and the end-reason buffer release count 2. -/
theorem end_reason_failure_double_free :
    (pod5_get_end_reason_wrapped end_reason_fails.lib 9 0 0 none (World.init 0)).result.map
        (fun r => (r.2.str, r.1.heap.map Buffer.released)) = some (some 0, [1]) ∧
    (transform_read_data_batch_array end_reason_fails.lib 9 [zero_row] 0 0
        (World.init 0)).result.map (fun r => r.1.heap.map Buffer.released) = some [1, 2] := by
  decide

/-- C9 (the code departs from the claim): with five arguments, the third being
`--uncompressed`, `main` warns about extra arguments and keeps
`DEFAULT_SIGNAL_COMPRESSION`; the flag is read only when the argument count is exactly 4. -/
theorem compression_flag_ignored_with_extra_arguments :
    main_select_compression ["copy", "in.pod5", "out.pod5", "--uncompressed", "extra"] =
      ArgOutcome.proceed ["Ignoring extra arguments (only first 3 considered)\n"]
        CompressionOption.DEFAULT_SIGNAL_COMPRESSION ∧
    main_select_compression ["copy", "in.pod5", "out.pod5", "--uncompressed"] =
      ArgOutcome.proceed [] CompressionOption.UNCOMPRESSED_SIGNAL := by
  decide

theorem threw_of_thrown {α ε : Type} (o : Outcome α ε) (h : o.thrown.isSome = true) :
    o = Outcome.threw (o.thrown.get h) := by
  cases o with
  | returned a => cases h
  | threw e => rfl
  | out_of_fuel => cases h

theorem transform_rows_append {σ : Type} (L : Pod5Lib σ) (fuel batch writer : Nat) :
    ∀ (pre rest : List ReadBatchRowInfo_t) (i : Nat) (w w1 : World σ)
      (t t1 : TransformState),
      transform_rows L fuel batch writer i pre w t = Outcome.returned (w1, t1) →
      transform_rows L fuel batch writer i (pre ++ rest) w t =
        transform_rows L fuel batch writer (i + pre.length) rest w1 t1 := by
  intro pre
  induction pre with
  | nil =>
    intro rest i w w1 t t1 h
    simp only [transform_rows] at h
    injection h with h
    injection h with hw ht
    subst hw ht
    rfl
  | cons row pre ih =>
    intro rest i w w1 t t1 h
    simp only [transform_rows, List.cons_append] at h ⊢
    split at h
    · cases h
    · cases h
    · rename_i wa ta hrow
      show transform_rows L fuel batch writer (i + 1) (pre ++ rest) wa ta = _
      rw [ih rest (i + 1) wa w1 ta t1 h, List.length_cons]
      congr 1
      omega

theorem transform_row_threw {σ : Type} (L : Pod5Lib σ) (fuel batch writer i : Nat)
    (row : ReadBatchRowInfo_t) (w w2 : World σ) (t : TransformState)
    (h : pod5_get_pore_wrapped L fuel batch row.pore_type w = Outcome.threw w2) :
    transform_row L fuel batch writer i row w t =
      Outcome.threw (w2, copy_leading_fields i row t) := by
  unfold transform_row
  simp only [h]

theorem pore_loop_threw_other {σ : Type} (L : Pod5Lib σ) (batch : Nat) (pore_type : Int) :
    ∀ (fuel : Nat) (w w2 : World σ) (str size : Nat),
      pod5_get_pore_loop L batch pore_type fuel w str size = Outcome.threw w2 →
      ∃ s n e, (L.pod5_get_pore_type s batch pore_type n).1.error =
        pod5_error_t.POD5_ERROR_OTHER e := by
  intro fuel
  induction fuel with
  | zero => intro w w2 str size h; simp [pod5_get_pore_loop] at h
  | succ fuel ih =>
    intro w w2 str size h
    rcases error_cases (L.pod5_get_pore_type w.lib batch pore_type size).1.error with
      he | he | ⟨c, he⟩
    · rw [pore_loop_ok L batch pore_type fuel w str size he] at h
      cases h
    · rw [pore_loop_short L batch pore_type fuel w str size he] at h
      split at h
      · exact ih _ _ _ _ h
      · cases h
    · exact ⟨w.lib, size, c, he⟩

theorem updateAt_last {α : Type} (f : α → α) (A : List α) (x : α) (p : Nat)
    (hp : p = A.length) : updateAt f p (A ++ [x]) = A ++ [f x] := by
  subst hp
  induction A with
  | nil => rfl
  | cons a A ih => simp [updateAt, ih]

theorem store_last (A : List Buffer) (b : Buffer) (p : Nat) (text : String)
    (hp : p = A.length) :
    store p text (A ++ [b]) = A ++ [{ b with text := text }] :=
  updateAt_last _ A b p hp

theorem free_last (A : List Buffer) (b : Buffer) (p : Nat) (hp : p = A.length) :
    free p (A ++ [b]) = A ++ [{ b with released := b.released + 1 }] :=
  updateAt_last _ A b p hp

theorem log_heap {σ : Type} (L : Pod5Lib σ) (e : pod5_error_t) (w : World σ) :
    (LOG_PROGRAM_ERROR L e w).heap = w.heap := by
  unfold LOG_PROGRAM_ERROR
  split <;> rfl

theorem pore_loop_fails {σ : Type} (L : Pod5Lib σ) (batch : Nat) (pore_type : Int)
    (k e : Nat) (hk : k ≤ 8)
    (hshort : ∀ s j, j < k →
      (L.pod5_get_pore_type s batch pore_type (256 * 2 ^ j)).1.error =
        pod5_error_t.POD5_ERROR_STRING_NOT_LONG_ENOUGH ∧
      (L.pod5_get_pore_type s batch pore_type (256 * 2 ^ j)).1.size = 256 * 2 ^ j)
    (hother : ∀ s, (L.pod5_get_pore_type s batch pore_type (256 * 2 ^ k)).1.error =
      pod5_error_t.POD5_ERROR_OTHER e)
    (base : List Buffer) :
    ∀ (d fuel j : Nat) (w : World σ) (bs : List Buffer) (b : Buffer),
      j + d = k → d < fuel → w.heap = base ++ bs ++ [b] → bs.length = j →
      (∀ x ∈ bs, x.released = 1) → b.released = 0 →
      ∃ w2 bs2, pod5_get_pore_loop L batch pore_type fuel w (base.length + j) (256 * 2 ^ j) =
          Outcome.threw w2 ∧
        w2.heap = base ++ bs2 ∧ bs2.length = k + 1 ∧ ∀ x ∈ bs2, x.released = 1 := by
  intro d
  induction d with
  | zero =>
    intro fuel j w bs b hjd hfuel hheap hbs hrel hb
    obtain ⟨fuel, rfl⟩ : ∃ f, fuel = f + 1 := ⟨fuel - 1, by omega⟩
    have hjk : j = k := by omega
    subst hjk
    have hstr : base.length + j = (base ++ bs).length := by simp [hbs]
    refine ⟨_, bs ++ [{ b with
        text := (L.pod5_get_pore_type w.lib batch pore_type (256 * 2 ^ j)).1.text,
        released := b.released + 1 }],
      pore_loop_other L batch pore_type fuel w _ _ e (hother w.lib), ?_, by simp [hbs], ?_⟩
    · rw [log_heap]
      simp only [after_pore_lookup, hheap]
      rw [store_last _ _ _ _ hstr, free_last _ _ _ hstr, List.append_assoc]
    · intro x hx
      rcases List.mem_append.mp hx with hx | hx
      · exact hrel x hx
      · rw [List.mem_singleton] at hx
        subst hx
        simp [hb]
  | succ d ih =>
    intro fuel j w bs b hjd hfuel hheap hbs hrel hb
    obtain ⟨fuel, rfl⟩ : ∃ f, fuel = f + 1 := ⟨fuel - 1, by omega⟩
    obtain ⟨herr, hsz⟩ := hshort w.lib j (by omega)
    have hstep := pore_loop_short L batch pore_type fuel w (base.length + j) _ herr
    rw [hsz, double_size j (by omega), max_pore_eq,
      if_pos ((size_le_max_iff _).mpr (by omega))] at hstep
    have hstr : base.length + j = (base ++ bs).length := by simp [hbs]
    have hheap1 : (after_pore_lookup L batch pore_type w (base.length + j) (256 * 2 ^ j)).heap =
        base ++ bs ++ [{ b with
          text := (L.pod5_get_pore_type w.lib batch pore_type (256 * 2 ^ j)).1.text }] := by
      simp only [after_pore_lookup, hheap]
      rw [store_last _ _ _ _ hstr]
    have hlen1 : (after_pore_lookup L batch pore_type w (base.length + j)
        (256 * 2 ^ j)).heap.length = base.length + (j + 1) := by
      rw [hheap1]
      simp [hbs]
    rw [hlen1] at hstep
    obtain ⟨w2, bs2, hrun, hh2, hl2, hr2⟩ := ih fuel (j + 1)
      (after_grow (after_pore_lookup L batch pore_type w (base.length + j) (256 * 2 ^ j))
        (base.length + j) (256 * 2 ^ (j + 1)))
      (bs ++ [{ b with
        text := (L.pod5_get_pore_type w.lib batch pore_type (256 * 2 ^ j)).1.text,
        released := b.released + 1 }])
      { size := 256 * 2 ^ (j + 1),
        text := load (base.length + j)
          (after_pore_lookup L batch pore_type w (base.length + j) (256 * 2 ^ j)).heap,
        released := 0 }
      (by omega) (by omega)
      (by
        simp only [after_grow, realloc]
        rw [hheap1, free_last _ _ _ hstr, List.append_assoc base])
      (by simp [hbs])
      (by
        intro x hx
        rcases List.mem_append.mp hx with hx | hx
        · exact hrel x hx
        · rw [List.mem_singleton] at hx
          subst hx
          simp [hb])
      rfl
    exact ⟨w2, bs2, by rw [hstep]; exact hrun, hh2, hl2, hr2⟩

theorem pore_wrapped_fails {σ : Type} (L : Pod5Lib σ) (batch : Nat) (pore_type : Int)
    (k e : Nat) (hk : k ≤ 8)
    (hshort : ∀ s j, j < k →
      (L.pod5_get_pore_type s batch pore_type (256 * 2 ^ j)).1.error =
        pod5_error_t.POD5_ERROR_STRING_NOT_LONG_ENOUGH ∧
      (L.pod5_get_pore_type s batch pore_type (256 * 2 ^ j)).1.size = 256 * 2 ^ j)
    (hother : ∀ s, (L.pod5_get_pore_type s batch pore_type (256 * 2 ^ k)).1.error =
      pod5_error_t.POD5_ERROR_OTHER e)
    (fuel : Nat) (hfuel : k < fuel) (w : World σ) :
    ∃ w2 bufs, pod5_get_pore_wrapped L fuel batch pore_type w = Outcome.threw w2 ∧
      w2.heap = w.heap ++ bufs ∧ bufs.length = k + 1 ∧ (∀ x ∈ bufs, x.released = 1) ∧
      w2.cerr = w.cerr ++ [L.pod5_get_error_string w2.lib] := by
  obtain ⟨w2, bs2, hrun, hh, hl, hr⟩ := pore_loop_fails L batch pore_type k e hk hshort hother
    w.heap k fuel 0 { w with heap := (malloc (16 <<< 4) w.heap).2 } []
    { size := 16 <<< 4, text := "", released := 0 } (by omega) hfuel (by simp [malloc]) rfl
    (fun x hx => absurd hx (List.not_mem_nil x)) rfl
  have hrun2 : pod5_get_pore_wrapped L fuel batch pore_type w = Outcome.threw w2 := by
    unfold pod5_get_pore_wrapped
    rw [initial_size_eq]
    exact hrun
  exact ⟨w2, bs2, hrun2, hh, hl, hr,
    ((pore_wrapped_frame L fuel batch pore_type w).2 w2 hrun2).2⟩

/-- C5, as amended: as compiled (with `DEBUG` defined), let the rows before row `i` have
been processed, and let the pore-type lookup for row `i` fail with an error other than
"buffer too small": it answers "buffer too small" (size argument unchanged) at the first
`k` buffer sizes `256, 512, ...` and the other error at the next size `256 * 2 ^ k`, for
some `k ≤ 8` (`k = 0`: the first call fails).  Then `pod5_get_pore_wrapped` throws, having
released every buffer it allocated exactly once (the heap is the earlier heap followed by
its `k + 1` buffers, each with release count 1) and logged the error; and
`transform_read_data_batch_array` does not run to completion: it ends with that exception
at row `i`.  At that point every column holds the rows before `i`; of row `i` only
`read_id` to `well` have been copied; row `i`'s pore-type slot is unwritten, and nothing of
the rows after `i` has been copied. -/
theorem pore_failure_ends_transform {σ : Type} (L : Pod5Lib σ) (fuel batch writer : Nat)
    (pre : List ReadBatchRowInfo_t) (row : ReadBatchRowInfo_t)
    (post : List ReadBatchRowInfo_t) (w w1 : World σ) (t1 : TransformState) (k e : Nat)
    (hpre : transform_rows L fuel batch writer 0 pre w
        { row_data := alloc_columns (pre ++ row :: post).length, read_id := 0,
          end_reason := 0 } = Outcome.returned (w1, t1))
    (hk : k ≤ 8) (hfuel : k < fuel)
    (hshort : ∀ s j, j < k →
      (L.pod5_get_pore_type s batch row.pore_type (256 * 2 ^ j)).1.error =
        pod5_error_t.POD5_ERROR_STRING_NOT_LONG_ENOUGH ∧
      (L.pod5_get_pore_type s batch row.pore_type (256 * 2 ^ j)).1.size = 256 * 2 ^ j)
    (hother : ∀ s, (L.pod5_get_pore_type s batch row.pore_type (256 * 2 ^ k)).1.error =
      pod5_error_t.POD5_ERROR_OTHER e) :
    ∃ (codes : List Int) (ers : List (Option Nat)) (w2 : World σ) (bufs : List Buffer)
      (t : TransformState),
      codes.length = pre.length ∧ ers.length = pre.length ∧
      pod5_get_pore_wrapped L fuel batch row.pore_type w1 = Outcome.threw w2 ∧
      w2.heap = w1.heap ++ bufs ∧ bufs.length = k + 1 ∧ (∀ x ∈ bufs, x.released = 1) ∧
      w2.cerr = w1.cerr ++ [L.pod5_get_error_string w2.lib] ∧
      transform_read_data_batch_array L fuel (pre ++ row :: post) batch writer w =
        Outcome.threw (w2, t) ∧
      t = copy_leading_fields pre.length row
        { row_data := partial_columns pre (codes.map some) ers (post.length + 1)
          read_id := pre.length, end_reason := pre.length } ∧
      t.row_data.read_number =
        pre.map (fun r => some r.read_number) ++
          some row.read_number :: List.replicate post.length none ∧
      t.row_data.pore_type = codes.map some ++ List.replicate (post.length + 1) none ∧
      t.row_data.calibration_offset =
        pre.map (fun r => some r.calibration_offset) ++
          List.replicate (post.length + 1) none ∧
      t.row_data.time_since_mux_change =
        pre.map (fun r => some r.time_since_mux_change) ++
          List.replicate (post.length + 1) none := by
  obtain ⟨w2, bufs, hfail, hheap, hbl, hbr, hcerr⟩ :=
    pore_wrapped_fails L batch row.pore_type k e hk hshort hother fuel hfuel w1
  have hn : (pre ++ row :: post).length = pre.length + (post.length + 1) := by simp
  have hpre0 := hpre
  rw [alloc_columns_eq, hn] at hpre0
  obtain ⟨keys, codes, ers, more, _, hc, hel, ht1, _⟩ :=
    transform_rows_returned L fuel batch writer pre [] [] [] (post.length + 1) w w1 t1 rfl rfl
      hpre0
  simp only [List.nil_append] at ht1
  refine ⟨codes, ers, w2, bufs, copy_leading_fields pre.length row t1, hc, hel, hfail, hheap,
    hbl, hbr, hcerr, ?_, by rw [ht1], ?_, ?_, ?_, ?_⟩
  · unfold transform_read_data_batch_array
    simp only []
    rw [transform_rows_append L fuel batch writer pre (row :: post) 0 w w1 _ t1 hpre]
    simp only [transform_rows, Nat.zero_add]
    rw [transform_row_threw L fuel batch writer pre.length row w1 w2 t1 hfail]
  · rw [ht1]
    simp [copy_leading_fields, partial_columns, List.replicate_succ, set_slot_map]
  · rw [ht1]
    simp [copy_leading_fields, partial_columns]
  · rw [ht1]
    simp [copy_leading_fields, partial_columns]
  · rw [ht1]
    simp [copy_leading_fields, partial_columns]

theorem pore_fails_late_prefix_returns :
    (transform_rows pore_fails_late.lib 9 0 0 0
      [{ zero_row with read_number := 1, pore_type := 1 }] (World.init 0)
      { row_data := alloc_columns
          ([{ zero_row with read_number := 1, pore_type := 1 }] ++
            { zero_row with read_number := 2, pore_type := 0 } ::
              [{ zero_row with read_number := 3, pore_type := 1 }]).length
        read_id := 0, end_reason := 0 }).result.isSome = true := by
  decide

theorem pore_fails_late_short (s j : Nat) (hj : j < 1) :
    (pore_fails_late.lib.pod5_get_pore_type s 0 0 (256 * 2 ^ j)).1.error =
      pod5_error_t.POD5_ERROR_STRING_NOT_LONG_ENOUGH ∧
    (pore_fails_late.lib.pod5_get_pore_type s 0 0 (256 * 2 ^ j)).1.size = 256 * 2 ^ j := by
  have hj0 : j = 0 := by omega
  subst hj0
  exact ⟨rfl, rfl⟩

theorem pore_fails_late_other (s : Nat) :
    (pore_fails_late.lib.pod5_get_pore_type s 0 0 (256 * 2 ^ 1)).1.error =
      pod5_error_t.POD5_ERROR_OTHER 5 :=
  rfl

theorem pore_failure_ends_transform_witness :
    ∃ (codes : List Int) (w2 : World Nat) (bufs : List Buffer) (t : TransformState),
      codes.length = 1 ∧
      pod5_get_pore_wrapped pore_fails_late.lib 9 0 0
        (Option.get _ pore_fails_late_prefix_returns).1 = Outcome.threw w2 ∧
      w2.heap = (Option.get _ pore_fails_late_prefix_returns).1.heap ++ bufs ∧
      bufs.length = 2 ∧ (∀ x ∈ bufs, x.released = 1) ∧
      transform_read_data_batch_array pore_fails_late.lib 9
        ([{ zero_row with read_number := 1, pore_type := 1 }] ++
          { zero_row with read_number := 2, pore_type := 0 } ::
            [{ zero_row with read_number := 3, pore_type := 1 }]) 0 0 (World.init 0) =
        Outcome.threw (w2, t) ∧
      t.row_data.read_number = [some 1, some 2, none] ∧
      t.row_data.pore_type = codes.map some ++ [none, none] := by
  obtain ⟨codes, ers, w2, bufs, t, hc, _, hfail, hheap, hbl, hbr, _, hrun, _, hrn, hpt, _⟩ :=
    pore_failure_ends_transform pore_fails_late.lib 9 0 0
      [{ zero_row with read_number := 1, pore_type := 1 }]
      { zero_row with read_number := 2, pore_type := 0 }
      [{ zero_row with read_number := 3, pore_type := 1 }] (World.init 0) _ _ 1 5
      (returned_of_result _ pore_fails_late_prefix_returns) (by decide) (by decide)
      pore_fails_late_short pore_fails_late_other
  exact ⟨codes, w2, bufs, t, hc, hfail, hheap, hbl, hbr, hrun, hrn, hpt⟩

/-- C5, counterexample: in a batch of three rows whose second row's pore-type lookup fails
with an error other than "buffer too small", `transform_read_data_batch_array` does not
return: it ends with the exception, one line having been logged, and the third row's
fields are not copied. -/
theorem pore_failure_stops_the_loop :
    (transform_read_data_batch_array pore_fails.lib 9 (pore_fails.rows 0) 0 0
      (World.init 0)).result.isSome = false ∧
    (transform_read_data_batch_array pore_fails.lib 9 (pore_fails.rows 0) 0 0
      (World.init 0)).thrown.map
        (fun e => (e.1.cerr, e.2.row_data.read_number, e.2.row_data.pore_type,
          e.2.row_data.time_since_mux_change)) =
      some (["pod5 error"], [some 1, some 2, none], [some 0, none, none],
        [some 0, none, none]) := by
  refine ⟨?_, ?_⟩
  · decide
  · decide

/-! ## Signal lengths -/

theorem main_load_rows_lengths {σ : Type} (L : Pod5Lib σ) (reader batch : Nat) :
    ∀ (remaining row : Nat) (w : World σ) (a : LoadedRows),
      (main_load_rows L reader batch remaining row w a).2.sample_count.length =
        a.sample_count.length + remaining ∧
      (main_load_rows L reader batch remaining row w a).2.signal.length =
        a.signal.length + remaining ∧
      (main_load_rows L reader batch remaining row w a).2.read_record_batch_array.length =
        a.read_record_batch_array.length + remaining := by
  intro remaining
  induction remaining with
  | zero => intro row w a; exact ⟨rfl, rfl, rfl⟩
  | succ remaining ih =>
    intro row w a
    simp only [main_load_rows]
    obtain ⟨h1, h2, h3⟩ := ih (row + 1) _ _
    rw [h1, h2, h3]
    simp only [List.length_append, List.length_singleton]
    omega

theorem log_lib {σ : Type} (L : Pod5Lib σ) (e : pod5_error_t) (w : World σ) :
    (LOG_PROGRAM_ERROR L e w).lib = w.lib := by
  unfold LOG_PROGRAM_ERROR
  split <;> rfl

theorem main_load_rows_step {σ : Type} (L : Pod5Lib σ) (reader batch : Nat)
    (remaining row : Nat) (w : World σ) (a : LoadedRows) :
    ∃ w3,
      main_load_rows L reader batch (remaining + 1) row w a =
        main_load_rows L reader batch remaining (row + 1) w3
          { read_record_batch_array :=
              a.read_record_batch_array ++
                [(L.pod5_get_read_batch_row_info_data w.lib batch row).1.2]
            sample_count := a.sample_count ++
              [(L.pod5_get_read_complete_sample_count
                (L.pod5_get_read_batch_row_info_data w.lib batch row).2 reader batch row).1.2]
            signal := a.signal ++
              [(L.pod5_get_read_complete_signal
                (L.pod5_get_read_complete_sample_count
                  (L.pod5_get_read_batch_row_info_data w.lib batch row).2 reader batch row).2
                reader batch row
                (L.pod5_get_read_complete_sample_count
                  (L.pod5_get_read_batch_row_info_data w.lib batch row).2 reader batch
                    row).1.2).1.2] } := by
  apply Exists.intro
  rw [main_load_rows]
  simp only [log_lib]
  rfl

theorem main_load_rows_source {σ : Type} (L : Pod5Lib σ) (reader batch : Nat) :
    ∀ (remaining row : Nat) (w : World σ) (a : LoadedRows),
      ∃ (cs : List Nat) (ss : List (List Int)),
        cs.length = remaining ∧ ss.length = remaining ∧
        (main_load_rows L reader batch remaining row w a).2.sample_count =
          a.sample_count ++ cs ∧
        (main_load_rows L reader batch remaining row w a).2.signal = a.signal ++ ss ∧
        ∀ j, j < remaining → ∃ s0 c g,
          c = L.pod5_get_read_complete_sample_count
            (L.pod5_get_read_batch_row_info_data s0 batch (row + j)).2 reader batch (row + j) ∧
          g = L.pod5_get_read_complete_signal c.2 reader batch (row + j) c.1.2 ∧
          cs[j]? = some c.1.2 ∧ ss[j]? = some g.1.2 := by
  intro remaining
  induction remaining with
  | zero =>
    intro row w a
    exact ⟨[], [], rfl, rfl, by simp [main_load_rows], by simp [main_load_rows],
      fun j hj => absurd hj (Nat.not_lt_zero j)⟩
  | succ remaining ih =>
    intro row w a
    obtain ⟨w3, hstep⟩ := main_load_rows_step L reader batch remaining row w a
    rw [hstep]
    obtain ⟨cs, ss, hcl, hsl, hcs, hss, hrows⟩ := ih (row + 1) w3 _
    refine ⟨(L.pod5_get_read_complete_sample_count
        (L.pod5_get_read_batch_row_info_data w.lib batch row).2 reader batch row).1.2 :: cs,
      (L.pod5_get_read_complete_signal
        (L.pod5_get_read_complete_sample_count
          (L.pod5_get_read_batch_row_info_data w.lib batch row).2 reader batch row).2
        reader batch row
        (L.pod5_get_read_complete_sample_count
          (L.pod5_get_read_batch_row_info_data w.lib batch row).2 reader batch
            row).1.2).1.2 :: ss,
      by simp [hcl], by simp [hsl], ?_, ?_, ?_⟩
    · rw [hcs]
      simp
    · rw [hss]
      simp
    · intro j hj
      cases j with
      | zero => exact ⟨w.lib, _, _, rfl, rfl, by simp, by simp⟩
      | succ j =>
        obtain ⟨s0, c, g, hc, hg, hcj, hsj⟩ := hrows j (by omega)
        have hrow : row + (j + 1) = row + 1 + j := by omega
        rw [hrow]
        exact ⟨s0, c, g, hc, hg, by simpa using hcj, by simpa using hsj⟩

/-- C8, as amended: when an iteration of the batch loop of `main` returns, it has made one
`pod5_add_reads_data` call for the batch the source delivered, with one signal buffer and
one `signal_length` entry per row.  For every row `r` of the batch, the signal buffer handed
over holds exactly the samples `pod5_get_read_complete_signal` wrote for row `r` (asked with
the complete sample count `pod5_get_read_complete_sample_count` reported for row `r`), and
whenever that count is below `2 ^ 32` the `signal_length` entry of row `r` equals it.  The
library state `s0` is the one in which the loading of row `r` starts. -/
theorem signal_fidelity_below_uint32 {σ : Type} (L : Pod5Lib σ)
    (fuel reader writer idx : Nat) (w w1 : World σ)
    (h : main_copy_batch L fuel reader writer idx w = Outcome.returned w1) :
    ∃ call b, b = L.pod5_get_read_batch w.lib reader idx ∧
      w1.appended = w.appended ++ [call] ∧
      call.row_count = (L.pod5_get_read_batch_row_count b.2 b.1.2).1.2 ∧
      call.signal.length = call.row_count ∧
      call.signal_length.length = call.row_count ∧
      ∀ r, r < call.row_count → ∃ s0 c g,
        c = L.pod5_get_read_complete_sample_count
          (L.pod5_get_read_batch_row_info_data s0 b.1.2 r).2 reader b.1.2 r ∧
        g = L.pod5_get_read_complete_signal c.2 reader b.1.2 r c.1.2 ∧
        call.signal[r]? = some g.1.2 ∧
        (c.1.2 < 2 ^ 32 → call.signal_length[r]? = some c.1.2) := by
  obtain ⟨rd, _, _, _, happ, _⟩ := main_copy_batch_returned L fuel reader writer idx w w1 h
  obtain ⟨cs, ss, hcl, hsl, hcs, hss, hrows⟩ := main_load_rows_source L reader
    (main_open_batch L reader idx w).current_batch
    (main_open_batch L reader idx w).batch_row_count 0 (main_open_batch L reader idx w).world
    { read_record_batch_array := [], sample_count := [], signal := [] }
  have hcount : (main_open_batch L reader idx w).batch_row_count =
      (L.pod5_get_read_batch_row_count (L.pod5_get_read_batch w.lib reader idx).2
        (L.pod5_get_read_batch w.lib reader idx).1.2).1.2 := by
    simp only [main_open_batch, log_lib]
  have hbatch : (main_open_batch L reader idx w).current_batch =
      (L.pod5_get_read_batch w.lib reader idx).1.2 := rfl
  have hcs1 : (main_loaded L reader idx w).2.sample_count = cs := by
    unfold main_loaded
    rw [hcs]
    rfl
  have hss1 : (main_loaded L reader idx w).2.signal = ss := by
    unfold main_loaded
    rw [hss]
    rfl
  rw [hcs1, hss1] at happ
  rw [hbatch] at hrows
  refine ⟨_, L.pod5_get_read_batch w.lib reader idx, rfl, happ, hcount, hsl, ?_, ?_⟩
  · show (main_signal_length cs).length = (main_open_batch L reader idx w).batch_row_count
    simp [main_signal_length, hcl]
  · intro r hr
    have hr1 : r < (main_open_batch L reader idx w).batch_row_count := hr
    obtain ⟨s0, c, g, hc, hg, hcr, hsr⟩ := hrows r hr1
    rw [Nat.zero_add] at hc hg
    refine ⟨s0, c, g, hc, hg, hsr, ?_⟩
    intro hlt
    simp only [main_signal_length, List.getElem?_map, hcr, Option.map_some', UINT32_RANGE]
    rw [Nat.mod_eq_of_lt hlt]

theorem two_batches_first_batch_returns :
    (main_copy_batch two_batches.lib 9 0 0 0 (World.init 0)).result.isSome = true := by
  decide

theorem signal_fidelity_below_uint32_witness :
    ∃ w1 call, main_copy_batch two_batches.lib 9 0 0 0 (World.init 0) = Outcome.returned w1 ∧
      w1.appended = (World.init 0).appended ++ [call] ∧
      call.row_count = 3 ∧
      call.signal[1]? = some [1, -1] ∧
      call.signal_length[1]? = some 2 := by
  obtain ⟨call, b, hb, happ, hrc, _, _, hrows⟩ :=
    signal_fidelity_below_uint32 two_batches.lib 9 0 0 0 (World.init 0) _
      (returned_of_result _ two_batches_first_batch_returns)
  subst hb
  have hrc3 : call.row_count = 3 := hrc
  obtain ⟨s0, c, g, hc, hg, hsig, hlen⟩ := hrows 1 (by rw [hrc3]; decide)
  subst hc
  subst hg
  have hsmall : (2 : Nat) < 2 ^ 32 := by decide
  exact ⟨_, call, returned_of_result _ two_batches_first_batch_returns, happ, hrc3, hsig,
    hlen hsmall⟩

/-- C8, counterexample: for a row whose complete sample count is `2 ^ 32`, a count that
`size_t` represents, the `signal_length` entry handed to `pod5_add_reads_data` is 0. -/
theorem signal_length_truncated :
    (main_loaded huge_signal.lib 0 0 (World.init 0)).2.sample_count = [4294967296] ∧
    (main_copy_batch huge_signal.lib 9 0 0 0 (World.init 0)).result.map
        (fun w => w.appended.map (fun c => c.signal_length)) = some [[0]] := by
  refine ⟨?_, ?_⟩
  · decide
  · decide

/-! ## The batch loop returns for well-behaved lookups

For a library whose lookups leave the size argument unchanged and whose pore-type lookup
never reports an error other than "buffer too small", an iteration bound of 9 is enough
for every call of the program to return. -/

theorem outcome_of_final_world {σ α : Type} {o : Outcome (World σ × α) (World σ)}
    {w : World σ} (h : final_world o = some w) :
    (∃ r, o = Outcome.returned r) ∨ ∃ w2, o = Outcome.threw w2 := by
  cases o with
  | returned r => exact Or.inl ⟨r, rfl⟩
  | threw w2 => exact Or.inr ⟨w2, rfl⟩
  | out_of_fuel => cases h

theorem pore_wrapped_returns {σ : Type} (L : Pod5Lib σ)
    (hsize : ∀ s b c n, (L.pod5_get_pore_type s b c n).1.size = n)
    (hfail : ∀ s b c n e, (L.pod5_get_pore_type s b c n).1.error ≠
      pod5_error_t.POD5_ERROR_OTHER e)
    (fuel : Nat) (hfuel : 9 ≤ fuel) (batch : Nat) (code : Int) (w : World σ) :
    ∃ r, pod5_get_pore_wrapped L fuel batch code w = Outcome.returned r := by
  obtain ⟨m, w1, _, _, hfin, _⟩ := pore_loop_calls L hsize batch code fuel 0
    { w with heap := (malloc (16 <<< 4) w.heap).2 } (malloc (16 <<< 4) w.heap).1
    (by omega) (by omega)
  rw [← initial_size_eq] at hfin
  rcases outcome_of_final_world hfin with ⟨r, hr⟩ | ⟨w2, hw2⟩
  · exact ⟨r, hr⟩
  · obtain ⟨s, n, e, he⟩ := pore_loop_threw_other L batch code fuel _ w2 _ _ hw2
    exact absurd he (hfail s batch code n e)

theorem end_reason_wrapped_returns {σ : Type} (L : Pod5Lib σ)
    (hsize : ∀ s b c n, (L.pod5_get_end_reason s b c n).1.size = n)
    (fuel : Nat) (hfuel : 9 ≤ fuel) (batch : Nat) (code : Int) (value : Option Nat)
    (w : World σ) :
    ∃ r, pod5_get_end_reason_wrapped L fuel batch code value w = Outcome.returned r := by
  obtain ⟨m, w1, _, _, hfin, _⟩ := end_reason_loop_calls L hsize batch code fuel 0
    { w with heap := (malloc (16 <<< 4) w.heap).2 } (malloc (16 <<< 4) w.heap).1 value
    (by omega) (by omega)
  rw [← initial_size_eq] at hfin
  rcases outcome_of_final_world hfin with ⟨r, hr⟩ | ⟨w2, hw2⟩
  · exact ⟨r, hr⟩
  · exact absurd hw2 ((end_reason_wrapped_frame L fuel batch code value w).2 w2)

theorem transform_row_returns {σ : Type} (L : Pod5Lib σ)
    (hp : ∀ s b c n, (L.pod5_get_pore_type s b c n).1.size = n)
    (he : ∀ s b c n, (L.pod5_get_end_reason s b c n).1.size = n)
    (hfail : ∀ s b c n e, (L.pod5_get_pore_type s b c n).1.error ≠
      pod5_error_t.POD5_ERROR_OTHER e)
    (fuel : Nat) (hfuel : 9 ≤ fuel) (batch writer i : Nat) (row : ReadBatchRowInfo_t)
    (w : World σ) (t : TransformState) :
    ∃ r, transform_row L fuel batch writer i row w t = Outcome.returned r := by
  obtain ⟨⟨w1, pore⟩, h1⟩ := pore_wrapped_returns L hp hfail fuel hfuel batch row.pore_type w
  unfold transform_row
  simp only [h1]
  obtain ⟨⟨w2, er⟩, h2⟩ := end_reason_wrapped_returns L he fuel hfuel batch row.end_reason
    (((copy_calibration_fields i row
      (intern_pore_type L writer i pore.str w1 (copy_leading_fields i row t)).2).row_data.end_reason[
        (copy_calibration_fields i row
          (intern_pore_type L writer i pore.str w1
            (copy_leading_fields i row t)).2).end_reason]?).join)
    (intern_pore_type L writer i pore.str w1 (copy_leading_fields i row t)).1
  rw [h2]
  exact ⟨_, rfl⟩

theorem transform_rows_returns {σ : Type} (L : Pod5Lib σ)
    (hp : ∀ s b c n, (L.pod5_get_pore_type s b c n).1.size = n)
    (he : ∀ s b c n, (L.pod5_get_end_reason s b c n).1.size = n)
    (hfail : ∀ s b c n e, (L.pod5_get_pore_type s b c n).1.error ≠
      pod5_error_t.POD5_ERROR_OTHER e)
    (fuel : Nat) (hfuel : 9 ≤ fuel) (batch writer : Nat) :
    ∀ (rows : List ReadBatchRowInfo_t) (i : Nat) (w : World σ) (t : TransformState),
      ∃ r, transform_rows L fuel batch writer i rows w t = Outcome.returned r := by
  intro rows
  induction rows with
  | nil => intro i w t; exact ⟨_, rfl⟩
  | cons row rows ih =>
    intro i w t
    obtain ⟨⟨w1, t1⟩, h1⟩ := transform_row_returns L hp he hfail fuel hfuel batch writer i row w t
    simp only [transform_rows, h1]
    exact ih (i + 1) w1 t1

theorem transform_returns {σ : Type} (L : Pod5Lib σ)
    (hp : ∀ s b c n, (L.pod5_get_pore_type s b c n).1.size = n)
    (he : ∀ s b c n, (L.pod5_get_end_reason s b c n).1.size = n)
    (hfail : ∀ s b c n e, (L.pod5_get_pore_type s b c n).1.error ≠
      pod5_error_t.POD5_ERROR_OTHER e)
    (fuel : Nat) (hfuel : 9 ≤ fuel) (in_data : List ReadBatchRowInfo_t) (batch writer : Nat)
    (w : World σ) :
    ∃ r, transform_read_data_batch_array L fuel in_data batch writer w =
      Outcome.returned r := by
  obtain ⟨⟨w1, t1⟩, h1⟩ := transform_rows_returns L hp he hfail fuel hfuel batch writer in_data 0
    w { row_data := alloc_columns in_data.length, read_id := 0, end_reason := 0 }
  unfold transform_read_data_batch_array
  simp only [h1]
  exact ⟨_, rfl⟩

theorem main_copy_batches_returns {σ : Type} (L : Pod5Lib σ)
    (hp : ∀ s b c n, (L.pod5_get_pore_type s b c n).1.size = n)
    (he : ∀ s b c n, (L.pod5_get_end_reason s b c n).1.size = n)
    (hfail : ∀ s b c n e, (L.pod5_get_pore_type s b c n).1.error ≠
      pod5_error_t.POD5_ERROR_OTHER e)
    (fuel : Nat) (hfuel : 9 ≤ fuel) (reader writer : Nat) :
    ∀ (remaining idx : Nat) (w : World σ),
      ∃ w1, main_copy_batches L fuel reader writer remaining idx w = Outcome.returned w1 := by
  intro remaining
  induction remaining with
  | zero => intro idx w; exact ⟨_, rfl⟩
  | succ remaining ih =>
    intro idx w
    obtain ⟨⟨w3, rd⟩, h1⟩ := transform_returns L hp he hfail fuel hfuel
      (main_loaded L reader idx w).2.read_record_batch_array
      (main_open_batch L reader idx w).current_batch writer (main_loaded L reader idx w).1
    have h2 : ∃ w2, main_copy_batch L fuel reader writer idx w = Outcome.returned w2 := by
      unfold main_copy_batch
      simp only [h1]
      exact ⟨_, rfl⟩
    obtain ⟨w2, h2⟩ := h2
    simp only [main_copy_batches, h2]
    exact ih (idx + 1) w2

end Pod5Copy
